import Mathlib

/-
Verification of the TILT compiler/VM core (skyne98/tilt-compiler) against its
natural-language specification.

This file shallowly embeds the parts of the Rust source that the claims under
scrutiny are about:

  * the machine-integer model (Rust `i32` / `i64` / 64-bit `usize`),
  * the IR data model (`tilt-ir`), as it is used by `lowering.rs`,
    `tilt-vm` and `tilt-codegen-cranelift` (branch terminators carry
    argument lists and a `Convert` instruction exists),
  * the VM interpreter (`tilt-vm/src/lib.rs`),
  * the host ABIs (`tilt-host-abi/src/lib.rs`),
  * the AST-to-IR lowering of terminators and literal operands
    (`tilt-ir/src/lowering.rs`),
  * the binary-operator dispatch of the Cranelift JIT translator
    (`tilt-codegen-cranelift/src/lib.rs`).

Rust machine integers are modelled as unbounded `Int` / `Nat` with explicit
reduction modulo 2^32 / 2^64 where the source wraps or reinterprets, and the
platform is fixed to 64-bit pointers (the `cfg!(target_pointer_width = "64")`
branch of the source).  Rust panics/aborts are modelled as explicit `panic`
outcomes.  Fallible Rust functions returning `Result` are modelled with
`Except`.
-/

namespace Tilt

/-! ## Machine integer model -/

/-- Two's-complement reduction of an unbounded integer into the `i32` range,
i.e. the value of `z as i32` in Rust (wrap-around semantics). -/
def wrapI32 (z : Int) : Int :=
  (z + 2147483648) % 4294967296 - 2147483648

/-- Two's-complement reduction into the `i64` range (`z as i64`). -/
def wrapI64 (z : Int) : Int :=
  (z + 9223372036854775808) % 18446744073709551616 - 9223372036854775808

/-- Reinterpretation of an unbounded integer as a `u64` (`z as u64`);
used for `usize` on the modelled 64-bit platform. -/
def wrapU64 (z : Int) : Nat :=
  (z % 18446744073709551616).toNat

/-- Reduction of a natural number modulo 2^64 (`u64` wrap-around). -/
def wrapNat64 (n : Nat) : Nat :=
  n % 18446744073709551616

/-- Reinterpretation of a `u64` value as an `i64` (`n as i64`). -/
def i64OfU64 (n : Nat) : Int :=
  if n < 9223372036854775808 then (n : Int) else (n : Int) - 18446744073709551616

/-- The value is representable as a Rust `i32`. -/
def inI32Range (z : Int) : Prop :=
  -2147483648 ≤ z ∧ z < 2147483648

/-- The value is representable as a Rust `i64`. -/
def inI64Range (z : Int) : Prop :=
  -9223372036854775808 ≤ z ∧ z < 9223372036854775808

instance (z : Int) : Decidable (inI32Range z) :=
  inferInstanceAs (Decidable (_ ∧ _))

instance (z : Int) : Decidable (inI64Range z) :=
  inferInstanceAs (Decidable (_ ∧ _))


/-! ## Types and runtime values

`Ty` embeds `tilt_ast::Type` (the name `Type` is reserved in Lean).
`RuntimeValue` embeds `tilt_host_abi::RuntimeValue`; the payloads of `I32`,
`I64` and `Usize` are the mathematical values of the Rust `i32` / `i64` /
`usize` fields. -/

inductive Ty where
  | I32
  | I64
  | F32
  | F64
  | Usize
  | Void
deriving Repr, DecidableEq

/-- The string produced for the type by Rust derived `Debug` formatting
(used inside VM error messages). -/
def Ty.debugRepr : Ty → String
  | .I32 => "I32"
  | .I64 => "I64"
  | .F32 => "F32"
  | .F64 => "F64"
  | .Usize => "Usize"
  | .Void => "Void"

inductive RuntimeValue where
  | I32 (val : Int)
  | I64 (val : Int)
  | Usize (val : Nat)
  | Void
deriving Repr, DecidableEq

/-- `RuntimeValue::get_type`. -/
def RuntimeValue.get_type : RuntimeValue → Ty
  | .I32 _ => .I32
  | .I64 _ => .I64
  | .Usize _ => .Usize
  | .Void => .Void

/-- The payload of the runtime value is within the range of its Rust
representation type (always true of values produced by the Rust program;
stated explicitly because the embedding uses unbounded integers). -/
def RuntimeValue.inRange : RuntimeValue → Prop
  | .I32 v => inI32Range v
  | .I64 v => inI64Range v
  | .Usize v => v < 18446744073709551616
  | .Void => True

instance (v : RuntimeValue) : Decidable v.inRange := by
  cases v <;> simp [RuntimeValue.inRange] <;> infer_instance

/-! ## IR data model (`tilt-ir`)

`ValueId` and `BlockId` are newtypes over `usize` in the source; they are
modelled directly as `Nat`.  The terminators carry branch-argument lists and
the instruction set includes `Convert`, matching the IR that `lowering.rs`,
the VM and the Cranelift translator construct and consume. -/

inductive BinaryOperator where
  | Add | Sub | Mul | Div | Rem
  | And | Or | Xor | Shl | Shr
  | Eq | Ne | Lt | Le | Gt | Ge
deriving Repr, DecidableEq

/-- Rust derived `Debug` formatting of the operator (used in error texts). -/
def BinaryOperator.debugRepr : BinaryOperator → String
  | .Add => "Add" | .Sub => "Sub" | .Mul => "Mul" | .Div => "Div" | .Rem => "Rem"
  | .And => "And" | .Or => "Or" | .Xor => "Xor" | .Shl => "Shl" | .Shr => "Shr"
  | .Eq => "Eq" | .Ne => "Ne" | .Lt => "Lt" | .Le => "Le" | .Gt => "Gt" | .Ge => "Ge"

inductive UnaryOperator where
  | Neg | Not
deriving Repr, DecidableEq

inductive Instruction where
  | BinaryOp (dest : Nat) (op : BinaryOperator) (ty : Ty) (lhs rhs : Nat)
  | UnaryOp (dest : Nat) (op : UnaryOperator) (ty : Ty) (operand : Nat)
  | Call (dest : Nat) (function : String) (args : List Nat) (return_type : Ty)
  | CallVoid (function : String) (args : List Nat)
  | Load (dest : Nat) (ty : Ty) (address : Nat)
  | Store (address value : Nat) (ty : Ty)
  | Const (dest : Nat) (value : Int) (ty : Ty)
  | PtrAdd (dest ptr offset : Nat)
  | SizeOf (dest : Nat) (ty : Ty)
  | Alloc (dest size : Nat)
  | Free (ptr : Nat)
  | Convert (dest src : Nat) (from_ty to_ty : Ty)
deriving Repr, DecidableEq

inductive Terminator where
  | Ret (value : Option Nat)
  | Br (target : Nat) (args : List Nat)
  | BrIf (cond : Nat) (true_target : Nat) (true_args : List Nat)
      (false_target : Nat) (false_args : List Nat)
deriving Repr, DecidableEq

structure BasicBlock where
  id : Nat
  label : String
  params : List (Nat × Ty)
  instructions : List Instruction
  terminator : Terminator
deriving Repr, DecidableEq

/-- `tilt_ir::Function`.  The `constants` side table
(`HashMap<ValueId, (i64, Type)>` in the source) is modelled as an
association list with distinct keys; insertion conses at the front and
lookup takes the first match. -/
structure Function where
  name : String
  params : List Ty
  return_type : Ty
  blocks : List BasicBlock
  entry_block : Nat
  next_value_id : Nat
  constants : List (Nat × Int × Ty)
deriving Repr, DecidableEq

structure ImportDecl where
  module : String
  name : String
  calling_convention : Option String
  params : List Ty
  return_type : Ty
deriving Repr, DecidableEq

structure Program where
  imports : List ImportDecl
  functions : List Function
deriving Repr, DecidableEq

/-! ## VM errors (`tilt-vm::VMError`) -/

inductive VMError where
  | functionNotFound (name : String)
  | blockNotFound (id : Nat)
  | valueNotFound (id : Nat)
  | typeMismatch (expected actual : Ty) (context : String)
  | divisionByZero
  | hostCallError (msg : String)
  | stackOverflow
  | invalidInstruction (msg : String)
deriving Repr, DecidableEq

/-! ## VM binary-operator evaluation

This embeds the `Instruction::BinaryOp` arm of `VM::execute_instruction`
(tilt-vm/src/lib.rs lines 442-594): the `match op` block computing `result`
from the two operand values.

Overflow behaviour of the Rust `+`, `-`, `*` operators on `i32`/`i64`
depends on the build profile: with overflow checks enabled (the default for
`dev` and `test` profiles) the operation panics on overflow, with them
disabled (the default for `release`) it wraps.  The `checks` flag selects
the profile.  The `Usize` arms use `wrapping_add` / `wrapping_sub` /
`wrapping_mul` in the source and always wrap.  Signed division overflow
(`i32::MIN / -1`) panics in every profile. -/

inductive BinOpResult where
  | ok (v : RuntimeValue)
  | err (e : VMError)
  | panic
deriving Repr, DecidableEq

/-- The `context` string for a binary-operation type mismatch, e.g.
`binary add operation (lhs: I32, rhs: I64)`. -/
def binOpMismatchCtx (opName : String) (l r : Ty) : String :=
  "binary " ++ opName ++ " operation (lhs: " ++ l.debugRepr ++ ", rhs: " ++ r.debugRepr ++ ")"

def vmBinaryOp (checks : Bool) (op : BinaryOperator)
    (lhs_val rhs_val : RuntimeValue) : BinOpResult :=
  match op with
  | .Add =>
    match lhs_val, rhs_val with
    | .I32 a, .I32 b =>
      if checks ∧ ¬ inI32Range (a + b) then .panic else .ok (.I32 (wrapI32 (a + b)))
    | .I64 a, .I64 b =>
      if checks ∧ ¬ inI64Range (a + b) then .panic else .ok (.I64 (wrapI64 (a + b)))
    | .Usize a, .Usize b => .ok (.Usize (wrapNat64 (a + b)))
    | _, _ =>
      .err (.typeMismatch lhs_val.get_type rhs_val.get_type
        (binOpMismatchCtx "add" lhs_val.get_type rhs_val.get_type))
  | .Sub =>
    match lhs_val, rhs_val with
    | .I32 a, .I32 b =>
      if checks ∧ ¬ inI32Range (a - b) then .panic else .ok (.I32 (wrapI32 (a - b)))
    | .I64 a, .I64 b =>
      if checks ∧ ¬ inI64Range (a - b) then .panic else .ok (.I64 (wrapI64 (a - b)))
    | .Usize a, .Usize b => .ok (.Usize (wrapNat64 (a + 18446744073709551616 - b)))
    | _, _ =>
      .err (.typeMismatch lhs_val.get_type rhs_val.get_type
        (binOpMismatchCtx "sub" lhs_val.get_type rhs_val.get_type))
  | .Mul =>
    match lhs_val, rhs_val with
    | .I32 a, .I32 b =>
      if checks ∧ ¬ inI32Range (a * b) then .panic else .ok (.I32 (wrapI32 (a * b)))
    | .I64 a, .I64 b =>
      if checks ∧ ¬ inI64Range (a * b) then .panic else .ok (.I64 (wrapI64 (a * b)))
    | .Usize a, .Usize b => .ok (.Usize (wrapNat64 (a * b)))
    | _, _ =>
      .err (.typeMismatch lhs_val.get_type rhs_val.get_type
        (binOpMismatchCtx "mul" lhs_val.get_type rhs_val.get_type))
  | .Div =>
    match lhs_val, rhs_val with
    | .I32 a, .I32 b =>
      if b = 0 then .err .divisionByZero
      else if a = -2147483648 ∧ b = -1 then .panic
      else .ok (.I32 (Int.tdiv a b))
    | .I64 a, .I64 b =>
      if b = 0 then .err .divisionByZero
      else if a = -9223372036854775808 ∧ b = -1 then .panic
      else .ok (.I64 (Int.tdiv a b))
    | .Usize a, .Usize b =>
      if b = 0 then .err .divisionByZero
      else .ok (.Usize (a / b))
    | _, _ =>
      .err (.typeMismatch lhs_val.get_type rhs_val.get_type
        (binOpMismatchCtx "div" lhs_val.get_type rhs_val.get_type))
  | .Eq =>
    match lhs_val, rhs_val with
    | .I32 a, .I32 b => .ok (.I32 (if a = b then 1 else 0))
    | .I64 a, .I64 b => .ok (.I32 (if a = b then 1 else 0))
    | .Usize a, .Usize b => .ok (.I32 (if a = b then 1 else 0))
    | _, _ =>
      .err (.typeMismatch lhs_val.get_type rhs_val.get_type
        (binOpMismatchCtx "eq" lhs_val.get_type rhs_val.get_type))
  | .Lt =>
    match lhs_val, rhs_val with
    | .I32 a, .I32 b => .ok (.I32 (if a < b then 1 else 0))
    | .I64 a, .I64 b => .ok (.I32 (if a < b then 1 else 0))
    | .Usize a, .Usize b => .ok (.I32 (if a < b then 1 else 0))
    | _, _ =>
      .err (.typeMismatch lhs_val.get_type rhs_val.get_type
        (binOpMismatchCtx "lt" lhs_val.get_type rhs_val.get_type))
  | _ =>
    .err (.invalidInstruction
      ("Binary operator " ++ op.debugRepr ++ " not yet implemented"))

/-! ## JIT translator binary-operator dispatch

Embeds the `Instruction::BinaryOp` arm of `Translator::translate_instruction`
(tilt-codegen-cranelift/src/lib.rs lines 311-372): which Cranelift
instruction sequence is emitted for each IR operator, or the compile-time
error returned when the operator is not supported.  Comparisons emit an
`icmp` with the given condition code followed by a `uextend` of the boolean
result to `I32`. -/

inductive IntCC where
  | Equal | NotEqual
  | SignedLessThan | SignedLessThanOrEqual
  | SignedGreaterThan | SignedGreaterThanOrEqual
deriving Repr, DecidableEq

inductive ClifBinOp where
  | iadd | isub | imul | sdiv | fdiv
  | icmpUextend (cc : IntCC)
deriving Repr, DecidableEq

def jitTranslateBinaryOp (op : BinaryOperator) (ty : Ty) : Except String ClifBinOp :=
  match op with
  | .Add => .ok .iadd
  | .Sub => .ok .isub
  | .Mul => .ok .imul
  | .Div =>
    match ty with
    | .I32 | .I64 => .ok .sdiv
    | .F32 | .F64 => .ok .fdiv
    | _ => .error ("Division not supported for type " ++ ty.debugRepr)
  | .Eq => .ok (.icmpUextend .Equal)
  | .Ne => .ok (.icmpUextend .NotEqual)
  | .Lt => .ok (.icmpUextend .SignedLessThan)
  | .Le => .ok (.icmpUextend .SignedLessThanOrEqual)
  | .Gt => .ok (.icmpUextend .SignedGreaterThan)
  | .Ge => .ok (.icmpUextend .SignedGreaterThanOrEqual)
  | _ => .error ("Binary operator " ++ op.debugRepr ++ " not implemented")

/-! ## Host ABI contract (`tilt-host-abi::HostABI`)

The trait is modelled as a record of pure functions over an ABI state type
`σ`; `&mut self` methods additionally return the updated state.
`has_function` is the trait's default implementation
(`available_functions().contains(&name)`). -/

structure HostABIModel (σ : Type) where
  call_host_function : σ → String → List RuntimeValue → Except String RuntimeValue × σ
  available_functions : σ → List String
  read_memory_value : σ → Nat → Ty → Except String RuntimeValue
  write_memory_value : σ → Nat → RuntimeValue → Except String σ

def HostABIModel.has_function (abi : HostABIModel σ) (st : σ) (name : String) : Bool :=
  (abi.available_functions st).contains name

/-- `tilt_host_abi::NullHostABI`: fails every call, exposes no functions,
and inherits the defaulted memory methods. -/
def NullHostABI : HostABIModel Unit where
  call_host_function := fun u name _ =>
    (.error ("Null ABI: function \x27" ++ name ++ "\x27 not implemented"), u)
  available_functions := fun _ => []
  read_memory_value := fun _ _ _ =>
    .error "Memory operations not supported by this host ABI"
  write_memory_value := fun _ _ _ =>
    .error "Memory operations not supported by this host ABI"

/-! ## VM state (`tilt-vm::VM` and `StackFrame`) -/

/-- `tilt-vm::StackFrame`.  The `HashMap<ValueId, RuntimeValue>` is modelled
as a function `Nat → Option RuntimeValue` (insertion overwrites). -/
structure Frame where
  function_name : String
  values : Nat → Option RuntimeValue
  current_block : Nat
  instruction_pointer : Nat

/-- `StackFrame::new`. -/
def Frame.new (function_name : String) (entry_block : Nat) : Frame :=
  { function_name := function_name
    values := fun _ => none
    current_block := entry_block
    instruction_pointer := 0 }

/-- `StackFrame::get_value`. -/
def Frame.get_value (f : Frame) (value_id : Nat) : Except VMError RuntimeValue :=
  match f.values value_id with
  | some v => .ok v
  | none => .error (.valueNotFound value_id)

/-- `StackFrame::set_value`. -/
def Frame.set_value (f : Frame) (value_id : Nat) (v : RuntimeValue) : Frame :=
  { f with values := fun k => if k = value_id then some v else f.values k }

/-- `tilt-vm::VM`.  The call stack is a list whose HEAD is the most recently
pushed frame (`Vec::push` conses, `Vec::pop` takes the tail,
`Vec::last` is the head). -/
structure VMState (σ : Type) where
  program : Program
  call_stack : List Frame
  host_abi : σ
  max_stack_depth : Nat

/-- `VM::new` (with `max_stack_depth = 1000`). -/
def VMState.new (program : Program) (host_abi : σ) : VMState σ :=
  { program := program, call_stack := [], host_abi := host_abi, max_stack_depth := 1000 }

/-- Outcome of running a piece of the VM.  `ok`/`err` carry the final VM
state (the Rust methods run on `&mut self`).  `panic` models a Rust panic
or abort (failed `unwrap`, arithmetic overflow under enabled overflow
checks); `timeout` means the step budget of the embedding ran out and says
nothing about the program. -/
inductive VMOut (σ : Type) where
  | ok (v : RuntimeValue) (s : VMState σ)
  | err (e : VMError) (s : VMState σ)
  | panic
  | timeout

/-- The returned value, when the run succeeded. -/
def VMOut.value? : VMOut σ → Option RuntimeValue
  | .ok v _ => some v
  | _ => none

/-- The returned error, when the run failed with a `VMError`. -/
def VMOut.error? : VMOut σ → Option VMError
  | .err e _ => some e
  | _ => none

/-- Conversion of a stored constant `(value, ty)` into a `RuntimeValue`.
This match appears twice in the source, in `VM::call_function` (constants
table setup) and in the `Instruction::Const` arm of
`VM::execute_instruction`; `I32` converts with `*value as i32`, `Usize`
with `(*value as u64).try_into().unwrap()` (infallible on the 64-bit
platform), and float types are rejected. -/
def constToRuntime (value : Int) (ty : Ty) : Except VMError RuntimeValue :=
  match ty with
  | .I32 => .ok (.I32 (wrapI32 value))
  | .I64 => .ok (.I64 value)
  | .Usize => .ok (.Usize (wrapU64 value))
  | .Void => .ok .Void
  | .F32 | .F64 => .error (.invalidInstruction "Float types not yet supported")

/-- The parameter-binding loop of `VM::call_function`: zips arguments with
declared parameter types, type-checks each, and binds argument `i` to
`ValueId(i)`. -/
def bindCallArgs (fname : String) : Frame → List (RuntimeValue × Ty) → Nat → Except VMError Frame
  | frame, [], _ => .ok frame
  | frame, (arg, param_type) :: rest, i =>
    if arg.get_type ≠ param_type then
      .error (.typeMismatch param_type arg.get_type
        ("function parameter " ++ toString i ++ " in function \x27" ++ fname ++ "\x27"))
    else
      bindCallArgs fname (frame.set_value i arg) rest (i + 1)

/-- The constants-table loop of `VM::call_function`. -/
def bindConstants : Frame → List (Nat × Int × Ty) → Except VMError Frame
  | frame, [] => .ok frame
  | frame, (value_id, const_value, const_type) :: rest =>
    match constToRuntime const_value const_type with
    | .error e => .error e
    | .ok rv => bindConstants (frame.set_value value_id rv) rest

/-- Resolution of a list of argument `ValueId`s in a frame (the
`args.iter().map(|a| frame.get_value(*a)).collect()` pattern). -/
def collectArgValues (frame : Frame) : List Nat → Except VMError (List RuntimeValue)
  | [] => .ok []
  | id :: rest =>
    match frame.get_value id with
    | .error e => .error e
    | .ok v =>
      match collectArgValues frame rest with
      | .error e => .error e
      | .ok vs => .ok (v :: vs)

/-- Positional binding of block parameters to argument values
(the `for (i, (param_id, _)) in target_block.params.iter().enumerate()`
loop of the `Br`/`BrIf` arms). -/
def bindBlockParams : Frame → List (Nat × Ty) → List RuntimeValue → Frame
  | frame, [], _ => frame
  | frame, _, [] => frame
  | frame, (param_id, _) :: ps, v :: vs =>
    bindBlockParams (frame.set_value param_id v) ps vs

/-- The control-transfer logic shared by the `Br` arm and each arm of
`BrIf` in `VM::execute_function` (the source duplicates this block
verbatim for `BrIf`): when the argument list is empty the frame jumps to
the target with NO parameter-count check; when it is non-empty the target
block is looked up, the argument count is compared against the target's
parameter count (`InvalidInstruction` on mismatch), the arguments are
resolved, and the target's parameters are bound positionally. -/
def branchTransfer (function : Function) (frame : Frame) (target : Nat)
    (args : List Nat) : Except VMError Frame :=
  if args.isEmpty then
    .ok { frame with current_block := target, instruction_pointer := 0 }
  else
    match function.blocks.find? (fun b => b.id == target) with
    | none => .error (.blockNotFound target)
    | some target_block =>
      if args.length ≠ target_block.params.length then
        .error (.invalidInstruction
          ("Block parameter count mismatch: expected " ++
            toString target_block.params.length ++ ", got " ++ toString args.length))
      else
        match collectArgValues frame args with
        | .error e => .error e
        | .ok arg_values =>
          .ok (bindBlockParams
            { frame with current_block := target, instruction_pointer := 0 }
            target_block.params arg_values)

/-- The truthiness test of the `BrIf` condition value. -/
def condTruthy (v : RuntimeValue) : Except VMError Bool :=
  match v with
  | .I32 x => .ok (x != 0)
  | .I64 x => .ok (x != 0)
  | _ => .error (.typeMismatch .I32 v.get_type "conditional branch condition")

/-- `sizeof` widths from the `Instruction::SizeOf` arm
(`std::mem::size_of::<usize>() = 8` on the modelled 64-bit platform). -/
def sizeOfTy : Ty → Nat
  | .I32 => 4
  | .I64 => 8
  | .F32 => 4
  | .F64 => 8
  | .Usize => 8
  | .Void => 0

/-- A request to the mutually recursive VM entry points, used to run the
three of them as one Nat-fuelled function (`call` is `VM::call_function`,
`exec` is `VM::execute_function`, `instr` is `VM::execute_instruction`;
every cross-call spends one unit of fuel).  For an `instr` request an `ok`
outcome carries `RuntimeValue.Void` as the returned value, matching the
`Ok(())` of the Rust signature `VMResult<()>`. -/
inductive VMReq (σ : Type) where
  | call (s : VMState σ) (name : String) (args : List RuntimeValue)
  | exec (s : VMState σ)
  | instr (s : VMState σ) (i : Instruction)

/-- The VM state a request runs against. -/
def VMReq.state : VMReq σ → VMState σ
  | .call s _ _ => s
  | .exec s => s
  | .instr s _ => s

def vmRun (abi : HostABIModel σ) (checks : Bool) : Nat → VMReq σ → VMOut σ
  | 0, _ => .timeout
  | fuel + 1, .call s name args =>
    -- VM::call_function
    match s.program.functions.find? (fun f => f.name == name) with
    | none => .err (.functionNotFound name) s
    | some function =>
      if args.length ≠ function.params.length then
        .err (.invalidInstruction
          ("Function " ++ name ++ " expects " ++ toString function.params.length ++
            " arguments, got " ++ toString args.length)) s
      else if s.call_stack.length ≥ s.max_stack_depth then
        .err .stackOverflow s
      else
        match function.blocks[0]? with
        | none => .err (.invalidInstruction "Function has no blocks") s
        | some entry =>
          match bindCallArgs name (Frame.new name entry.id) (args.zip function.params) 0 with
          | .error e => .err e s
          | .ok frame1 =>
            match bindConstants frame1 function.constants with
            | .error e => .err e s
            | .ok frame2 =>
              -- push the frame, execute, pop the frame, return the result
              match vmRun abi checks fuel (.exec { s with call_stack := frame2 :: s.call_stack }) with
              | .ok v s1 => .ok v { s1 with call_stack := s1.call_stack.tail }
              | .err e s1 => .err e { s1 with call_stack := s1.call_stack.tail }
              | .panic => .panic
              | .timeout => .timeout
  | fuel + 1, .exec s =>
    -- VM::execute_function (one iteration of the dispatch loop)
    match s.call_stack with
    | [] => .panic -- self.call_stack.last().unwrap()
    | frame :: rest =>
      match s.program.functions.find? (fun f => f.name == frame.function_name) with
      | none => .panic -- .unwrap(): "We know it exists"
      | some function =>
        match function.blocks.find? (fun b => b.id == frame.current_block) with
        | none => .err (.blockNotFound frame.current_block) s
        | some block =>
          if frame.instruction_pointer ≥ block.instructions.length then
            match block.terminator with
            | .Ret value =>
              match value with
              | some val_id =>
                match frame.get_value val_id with
                | .ok v => .ok v s
                | .error e => .err e s
              | none => .ok .Void s
            | .Br target args =>
              match branchTransfer function frame target args with
              | .error e => .err e s
              | .ok frame1 =>
                vmRun abi checks fuel (.exec { s with call_stack := frame1 :: rest })
            | .BrIf cond true_target true_args false_target false_args =>
              match frame.get_value cond with
              | .error e => .err e s
              | .ok cond_value =>
                match condTruthy cond_value with
                | .error e => .err e s
                | .ok is_true =>
                  let target_block_id := if is_true then true_target else false_target
                  let target_args := if is_true then true_args else false_args
                  match branchTransfer function frame target_block_id target_args with
                  | .error e => .err e s
                  | .ok frame1 =>
                    vmRun abi checks fuel (.exec { s with call_stack := frame1 :: rest })
          else
            match block.instructions[frame.instruction_pointer]? with
            | none => .panic -- Vec indexing (unreachable: guarded above)
            | some instruction =>
              match vmRun abi checks fuel (.instr s instruction) with
              | .ok _ s1 =>
                -- advance the instruction pointer of the (re-fetched) top frame
                match s1.call_stack with
                | [] => .panic -- self.call_stack.last_mut().unwrap()
                | f1 :: r1 =>
                  vmRun abi checks fuel
                    (.exec
                      { s1 with
                        call_stack :=
                          { f1 with instruction_pointer := f1.instruction_pointer + 1 } :: r1 })
              | .err e s1 => .err e s1
              | .panic => .panic
              | .timeout => .timeout
  | fuel + 1, .instr s i =>
    -- VM::execute_instruction
    match s.call_stack with
    | [] => .panic -- self.call_stack.last().unwrap()
    | frame :: rest =>
      match i with
      | .Call dest function args _ =>
        match collectArgValues frame args with
        | .error e => .err e s
        | .ok arg_values =>
          if abi.has_function s.host_abi function then
            match abi.call_host_function s.host_abi function arg_values with
            | (.error msg, abi1) => .err (.hostCallError msg) { s with host_abi := abi1 }
            | (.ok result, abi1) =>
              .ok .Void
                { s with
                  host_abi := abi1
                  call_stack := frame.set_value dest result :: rest }
          else
            match vmRun abi checks fuel (.call s function arg_values) with
            | .ok result s1 =>
              match s1.call_stack with
              | [] => .panic -- last_mut().unwrap()
              | f1 :: r1 => .ok .Void { s1 with call_stack := f1.set_value dest result :: r1 }
            | .err e s1 => .err e s1
            | .panic => .panic
            | .timeout => .timeout
      | .CallVoid function args =>
        match collectArgValues frame args with
        | .error e => .err e s
        | .ok arg_values =>
          if abi.has_function s.host_abi function then
            match abi.call_host_function s.host_abi function arg_values with
            | (.error msg, abi1) => .err (.hostCallError msg) { s with host_abi := abi1 }
            | (.ok _, abi1) => .ok .Void { s with host_abi := abi1 }
          else
            match vmRun abi checks fuel (.call s function arg_values) with
            | .ok _ s1 => .ok .Void s1
            | .err e s1 => .err e s1
            | .panic => .panic
            | .timeout => .timeout
      | .Const dest value ty =>
        match constToRuntime value ty with
        | .error e => .err e s
        | .ok rv => .ok .Void { s with call_stack := frame.set_value dest rv :: rest }
      | .BinaryOp dest op _ lhs rhs =>
        match frame.get_value lhs with
        | .error e => .err e s
        | .ok lhs_val =>
          match frame.get_value rhs with
          | .error e => .err e s
          | .ok rhs_val =>
            match vmBinaryOp checks op lhs_val rhs_val with
            | .err e => .err e s
            | .panic => .panic
            | .ok result => .ok .Void { s with call_stack := frame.set_value dest result :: rest }
      | .UnaryOp _ _ _ _ =>
        .err (.invalidInstruction "Unary operations not yet implemented") s
      | .Load dest ty address =>
        match frame.get_value address with
        | .error e => .err e s
        | .ok addr_val =>
          match addr_val with
          | .Usize addr =>
            match abi.read_memory_value s.host_abi addr ty with
            | .error e => .err (.invalidInstruction ("Memory read error: " ++ e)) s
            | .ok result => .ok .Void { s with call_stack := frame.set_value dest result :: rest }
          | _ => .err (.typeMismatch .Usize addr_val.get_type "load instruction address") s
      | .Store address value _ =>
        match frame.get_value address with
        | .error e => .err e s
        | .ok addr_val =>
          match frame.get_value value with
          | .error e => .err e s
          | .ok val =>
            match addr_val with
            | .Usize addr =>
              match abi.write_memory_value s.host_abi addr val with
              | .error e => .err (.invalidInstruction ("Memory write error: " ++ e)) s
              | .ok abi1 => .ok .Void { s with host_abi := abi1 }
            | _ => .err (.typeMismatch .Usize addr_val.get_type "store instruction address") s
      | .PtrAdd dest ptr offset =>
        match frame.get_value ptr with
        | .error e => .err e s
        | .ok ptr_val =>
          match frame.get_value offset with
          | .error e => .err e s
          | .ok offset_val =>
            match ptr_val, offset_val with
            | .Usize ptr_addr, .Usize offset_bytes =>
              .ok .Void
                { s with
                  call_stack :=
                    frame.set_value dest (.Usize (wrapNat64 (ptr_addr + offset_bytes))) :: rest }
            | _, _ =>
              .err (.typeMismatch .Usize offset_val.get_type
                ("pointer arithmetic (ptr: " ++ ptr_val.get_type.debugRepr ++
                  ", offset: " ++ offset_val.get_type.debugRepr ++ ")")) s
      | .SizeOf dest ty =>
        .ok .Void { s with call_stack := frame.set_value dest (.Usize (sizeOfTy ty)) :: rest }
      | .Alloc dest size =>
        match frame.get_value size with
        | .error e => .err e s
        | .ok size_val =>
          match size_val with
          | .Usize _ =>
            match abi.call_host_function s.host_abi "alloc" [size_val] with
            | (.error msg, abi1) => .err (.hostCallError msg) { s with host_abi := abi1 }
            | (.ok result, abi1) =>
              .ok .Void
                { s with
                  host_abi := abi1
                  call_stack := frame.set_value dest result :: rest }
          | _ => .err (.typeMismatch .Usize size_val.get_type "alloc instruction size parameter") s
      | .Free ptr =>
        match frame.get_value ptr with
        | .error e => .err e s
        | .ok ptr_val =>
          match ptr_val with
          | .Usize _ =>
            match abi.call_host_function s.host_abi "free" [ptr_val] with
            | (.error msg, abi1) => .err (.hostCallError msg) { s with host_abi := abi1 }
            | (.ok _, abi1) => .ok .Void { s with host_abi := abi1 }
          | _ => .err (.typeMismatch .Usize ptr_val.get_type "free instruction pointer parameter") s
      | .Convert dest src from_ty to_ty =>
        match frame.get_value src with
        | .error e => .err e s
        | .ok src_val =>
          if src_val.get_type ≠ from_ty then
            .err (.typeMismatch from_ty src_val.get_type
              ("convert instruction source type (converting " ++ from_ty.debugRepr ++
                " to " ++ to_ty.debugRepr ++ ")")) s
          else
            match from_ty, to_ty, src_val with
            | .I32, .I64, .I32 v =>
              .ok .Void { s with call_stack := frame.set_value dest (.I64 v) :: rest }
            | .I32, .Usize, .I32 v =>
              .ok .Void { s with call_stack := frame.set_value dest (.Usize (wrapU64 v)) :: rest }
            | .I64, .I32, .I64 v =>
              .ok .Void { s with call_stack := frame.set_value dest (.I32 (wrapI32 v)) :: rest }
            | .Usize, .I64, .Usize v =>
              .ok .Void { s with call_stack := frame.set_value dest (.I64 (i64OfU64 v)) :: rest }
            | .Usize, .I32, .Usize v =>
              .ok .Void { s with call_stack := frame.set_value dest (.I32 (wrapI32 (v : Int))) :: rest }
            | .I64, .Usize, .I64 v =>
              .ok .Void { s with call_stack := frame.set_value dest (.Usize (wrapU64 v)) :: rest }
            | _, _, _ =>
              .err (.invalidInstruction
                ("Unsupported type conversion from " ++ from_ty.debugRepr ++
                  " to " ++ to_ty.debugRepr)) s

/-- `VM::call_function`. -/
def call_function (abi : HostABIModel σ) (checks : Bool) (fuel : Nat)
    (s : VMState σ) (name : String) (args : List RuntimeValue) : VMOut σ :=
  vmRun abi checks fuel (.call s name args)

/-- `VM::execute_function`. -/
def execute_function (abi : HostABIModel σ) (checks : Bool) (fuel : Nat)
    (s : VMState σ) : VMOut σ :=
  vmRun abi checks fuel (.exec s)

/-- `VM::execute_instruction`. -/
def execute_instruction (abi : HostABIModel σ) (checks : Bool) (fuel : Nat)
    (s : VMState σ) (i : Instruction) : VMOut σ :=
  vmRun abi checks fuel (.instr s i)

/-! ## Little-endian byte encoding

Bytes are naturals below 256.  `natToLeBytes n len` is the little-endian
byte string of `n` truncated to `len` bytes (Rust `to_le_bytes` of the
unsigned reinterpretation); `leBytesToNat` is `from_le_bytes`. -/

def natToLeBytes : Nat → Nat → List Nat
  | _, 0 => []
  | n, len + 1 => n % 256 :: natToLeBytes (n / 256) len

def leBytesToNat : List Nat → Nat
  | [] => 0
  | b :: rest => b + 256 * leBytesToNat rest

/-- The unsigned `u32` reinterpretation of an `i32` value (`z as u32`). -/
def u32OfI32 (z : Int) : Nat := (z % 4294967296).toNat

/-- The signed reading of a `u32` bit pattern (`n as i32`). -/
def i32OfU32 (n : Nat) : Int :=
  if n < 2147483648 then (n : Int) else (n : Int) - 4294967296


/-! ## Interpreter memory host ABI (`tilt-host-abi::MemoryHostABI`)

The allocation map (`HashMap<u64, Vec<u8>>`) is modelled as an association
list from base addresses to byte buffers; insertion conses at the front.
`HashMap` iteration order is arbitrary in Rust; the model scans the list
front to back, which agrees with any order whenever the allocations are
pairwise disjoint (see `MemoryHostABI.wf`). -/

structure MemoryHostABI where
  memory : List (Nat × List Nat)
  next_addr : Nat
deriving Repr, DecidableEq

/-- `MemoryHostABI::new` (allocation begins at `0x1000`). -/
def MemoryHostABI.new : MemoryHostABI :=
  { memory := [], next_addr := 4096 }

/-- Lowercase hexadecimal rendering of an address (Rust `format!("0x{:x}")`
without the prefix). -/
def hexRepr (n : Nat) : String :=
  String.mk (Nat.toDigits 16 n)

/-- `MemoryHostABI::read_memory`: find the allocation containing
`[addr, addr + size)` and return that slice of its buffer. -/
def MemoryHostABI.read_memory (s : MemoryHostABI) (addr size : Nat) :
    Except String (List Nat) :=
  match s.memory.find? (fun e => decide (e.1 ≤ addr ∧ addr + size ≤ e.1 + e.2.length)) with
  | some e => .ok ((e.2.drop (addr - e.1)).take size)
  | none => .error ("Invalid memory access at address 0x" ++ hexRepr addr)

/-- In-place overwrite of `data[off .. off + bytes.length]` with `bytes`
(the `copy_from_slice` of `write_memory`). -/
def writeBytesAt (data : List Nat) (off : Nat) (bytes : List Nat) : List Nat :=
  data.take off ++ bytes ++ data.drop (off + bytes.length)

/-- The scan of `MemoryHostABI::write_memory` over the allocation map:
mutate the first allocation containing the written range, `none` when no
allocation contains it. -/
def writeMemGo : List (Nat × List Nat) → Nat → List Nat → Option (List (Nat × List Nat))
  | [], _, _ => none
  | e :: rest, addr, bytes =>
    if e.1 ≤ addr ∧ addr + bytes.length ≤ e.1 + e.2.length then
      some ((e.1, writeBytesAt e.2 (addr - e.1) bytes) :: rest)
    else
      match writeMemGo rest addr bytes with
      | some rest1 => some (e :: rest1)
      | none => none

/-- `MemoryHostABI::write_memory`. -/
def MemoryHostABI.write_memory (s : MemoryHostABI) (addr : Nat) (bytes : List Nat) :
    Except String MemoryHostABI :=
  match writeMemGo s.memory addr bytes with
  | some mem1 => .ok { s with memory := mem1 }
  | none => .error ("Invalid memory write at address 0x" ++ hexRepr addr)

/-- `MemoryHostABI::read_value`.  `F32`/`F64` are read as `I32`/`I64`
("since we don't have F32/F64 variants"), `Usize` as a `u64`. -/
def MemoryHostABI.read_value (s : MemoryHostABI) (addr : Nat) (ty : Ty) :
    Except String RuntimeValue :=
  match ty with
  | .I32 => (s.read_memory addr 4).map (fun bs => .I32 (i32OfU32 (leBytesToNat bs)))
  | .I64 => (s.read_memory addr 8).map (fun bs => .I64 (i64OfU64 (leBytesToNat bs)))
  | .F32 => (s.read_memory addr 4).map (fun bs => .I32 (i32OfU32 (leBytesToNat bs)))
  | .F64 => (s.read_memory addr 8).map (fun bs => .I64 (i64OfU64 (leBytesToNat bs)))
  | .Usize => (s.read_memory addr 8).map (fun bs => .Usize (leBytesToNat bs))
  | .Void => .error "Cannot read void type from memory"

/-- `MemoryHostABI::write_value` (`to_le_bytes`, 4 bytes for `I32`,
8 bytes for `I64` and for `usize` on the 64-bit platform). -/
def MemoryHostABI.write_value (s : MemoryHostABI) (addr : Nat) (v : RuntimeValue) :
    Except String MemoryHostABI :=
  match v with
  | .I32 x => s.write_memory addr (natToLeBytes (u32OfI32 x) 4)
  | .I64 x => s.write_memory addr (natToLeBytes (wrapU64 x) 8)
  | .Usize x => s.write_memory addr (natToLeBytes x 8)
  | .Void => .error "Cannot write void type to memory"

/-- `MemoryHostABI::allocate`: zero-sized requests return the null address
without touching the allocator state; otherwise a fresh zero-filled buffer
is registered at `next_addr` and `next_addr` advances by `size + 8`. -/
def MemoryHostABI.allocate (s : MemoryHostABI) (size : Nat) : Nat × MemoryHostABI :=
  if size = 0 then
    (0, s)
  else
    (s.next_addr,
      { memory := (s.next_addr, List.replicate size 0) :: s.memory
        next_addr := s.next_addr + size + 8 })

/-- `MemoryHostABI::deallocate`: freeing the null address is a no-op;
freeing a registered base address removes the allocation; anything else is
an error. -/
def MemoryHostABI.deallocate (s : MemoryHostABI) (addr : Nat) : Except String MemoryHostABI :=
  if addr = 0 then
    .ok s
  else if (s.memory.find? (fun e => e.1 == addr)).isSome then
    .ok { s with memory := s.memory.eraseP (fun e => e.1 == addr) }
  else
    .error ("Attempt to free invalid address: 0x" ++ hexRepr addr)

/-- `RuntimeValue::as_ptr` (`none` models the Rust panic on a
non-`Usize` argument). -/
def RuntimeValue.as_ptr : RuntimeValue → Option Nat
  | .Usize v => some v
  | _ => none

/-- `MemoryHostABI::call_host_function`.  Functions other than
`alloc`/`free` are delegated to a freshly created `ConsoleHostABI`, whose
behaviour performs terminal I/O; the delegation target is abstracted as the
`console` oracle.  A `none` result models a Rust panic (from `as_ptr` on a
wrongly typed argument). -/
def MemoryHostABI.call_host_function (console : String → List RuntimeValue → Except String RuntimeValue)
    (s : MemoryHostABI) (name : String) (args : List RuntimeValue) :
    Option (Except String RuntimeValue × MemoryHostABI) :=
  match name with
  | "alloc" =>
    match args with
    | [arg] =>
      match arg.as_ptr with
      | none => none
      | some size =>
        let r := s.allocate size
        some (.ok (.Usize r.1), r.2)
    | _ => some (.error ("alloc expects 1 argument, got " ++ toString args.length), s)
  | "free" =>
    match args with
    | [arg] =>
      match arg.as_ptr with
      | none => none
      | some addr =>
        match s.deallocate addr with
        | .ok s1 => some (.ok .Void, s1)
        | .error e => some (.error e, s)
    | _ => some (.error ("free expects 1 argument, got " ++ toString args.length), s)
  | _ => some (console name args, s)

/-- Well-formedness of the interpreter memory state: every allocation lies
below `next_addr` and allocations are pairwise disjoint.  These hold for
every state reachable from `MemoryHostABI.new` and make the association
list model independent of the `HashMap` iteration order. -/
def MemoryHostABI.wf (s : MemoryHostABI) : Prop :=
  (∀ e ∈ s.memory, e.1 + e.2.length ≤ s.next_addr) ∧
    s.memory.Pairwise (fun a b => a.1 + a.2.length ≤ b.1 ∨ b.1 + b.2.length ≤ a.1)


/-! ## JIT memory host ABI (`tilt-host-abi::JITMemoryHostABI`)

Only the allocation bookkeeping is modelled; the actual system allocator
(`std::alloc::alloc`) is abstracted as the `sys` oracle giving the raw
pointer it would return for the non-zero-size path (`0` = null =
allocation failure). -/

structure JITMemoryHostABI where
  allocations : List (Nat × Nat)
deriving Repr, DecidableEq

def JITMemoryHostABI.new : JITMemoryHostABI :=
  { allocations := [] }

/-- `JITMemoryHostABI::allocate_real_memory`: zero-sized requests return
null immediately, before any call into the system allocator and without
recording an allocation; otherwise the system pointer (oracle `sys`) is
recorded with its size, or null is returned on allocation failure. -/
def JITMemoryHostABI.allocate_real_memory (sys : Nat) (s : JITMemoryHostABI)
    (size : Nat) : Nat × JITMemoryHostABI :=
  if size = 0 then
    (0, s)
  else if sys = 0 then
    (0, s)
  else
    (sys, { allocations := (sys, size) :: s.allocations })

/-- `JITMemoryHostABI::free_real_memory`: freeing null is a no-op;
freeing a recorded address removes it (and deallocates the real memory,
outside the model); anything else is an error. -/
def JITMemoryHostABI.free_real_memory (s : JITMemoryHostABI) (addr : Nat) :
    Except String JITMemoryHostABI :=
  if addr = 0 then
    .ok s
  else if (s.allocations.find? (fun e => e.1 == addr)).isSome then
    .ok { allocations := s.allocations.eraseP (fun e => e.1 == addr) }
  else
    .error ("Attempt to free invalid address: 0x" ++ hexRepr addr)

/-- `JITMemoryHostABI::call_host_function` (same shape as the interpreter
memory ABI; `sys` abstracts the system allocator, `console` the delegated
console ABI). -/
def JITMemoryHostABI.call_host_function (sys : Nat)
    (console : String → List RuntimeValue → Except String RuntimeValue)
    (s : JITMemoryHostABI) (name : String) (args : List RuntimeValue) :
    Option (Except String RuntimeValue × JITMemoryHostABI) :=
  match name with
  | "alloc" =>
    match args with
    | [arg] =>
      match arg.as_ptr with
      | none => none
      | some size =>
        let r := s.allocate_real_memory sys size
        some (.ok (.Usize r.1), r.2)
    | _ => some (.error ("alloc expects 1 argument, got " ++ toString args.length), s)
  | "free" =>
    match args with
    | [arg] =>
      match arg.as_ptr with
      | none => none
      | some addr =>
        match s.free_real_memory addr with
        | .ok s1 => some (.ok .Void, s1)
        | .error e => some (.error e, s)
    | _ => some (.error ("free expects 1 argument, got " ++ toString args.length), s)
  | _ => some (console name args, s)

/-! ## AST and lowering (`tilt-ast`, `tilt-ir/src/lowering.rs`)

Only the pieces the claims are about are embedded: AST values and
terminators, the per-function lowering context, `lower_value_with_func`
and `lower_terminator`. -/

/-- `tilt_ast::Value`.  NOTE: the Rust payload of `Constant` has type
`i32`, so a well-formed AST literal (`AstValue.wf`) is always within the
signed 32-bit range. -/
inductive AstValue where
  | Variable (name : String)
  | Constant (val : Int)
deriving Repr, DecidableEq

/-- The range constraint imposed by the Rust representation type `i32` of
`Value::Constant`. -/
def AstValue.wf : AstValue → Prop
  | .Variable _ => True
  | .Constant c => inI32Range c

instance (v : AstValue) : Decidable v.wf := by
  cases v <;> simp [AstValue.wf] <;> infer_instance

/-- `tilt_ast::Terminator`. -/
inductive AstTerminator where
  | ret (value : Option AstValue)
  | br (label : String) (args : List AstValue)
  | brIf (cond : AstValue) (true_label : String) (true_args : List AstValue)
      (false_label : String) (false_args : List AstValue)
deriving Repr, DecidableEq

/-- `tilt_ir::SemanticError`. -/
inductive SemanticError where
  | undefinedIdentifier (name location : String)
  | duplicateDefinition (name location : String)
  | typeMismatch (expected found : Ty) (location : String)
  | invalidOperation (operation : String) (ty : Ty) (location : String)
  | undefinedBlock (label location : String)
  | missingTerminator (block : String)
  | invalidPhiReference (block referenced_block : String)
  | functionNotFound (name location : String)
  | argumentMismatch (function : String) (expected found : Nat) (location : String)
deriving Repr, DecidableEq

/-- The fields of `LoweringContext` consulted or mutated by
`lower_terminator` and `lower_value_with_func` (the signature table and
block-id counter play no role there and are omitted).  `block_map` and
`value_map` model the per-function `HashMap`s as association lists with
first-match lookup; `error` pushes onto `errors`. -/
structure LoweringContext where
  current_function : Option Function
  block_map : List (String × Nat)
  value_map : List (String × Nat × Ty)
  errors : List SemanticError
deriving Repr, DecidableEq

/-- `LoweringContext::error`. -/
def LoweringContext.error (ctx : LoweringContext) (e : SemanticError) : LoweringContext :=
  { ctx with errors := ctx.errors ++ [e] }

/-- `LoweringContext::lookup_variable`. -/
def LoweringContext.lookup_variable (ctx : LoweringContext) (name : String) :
    Option (Nat × Ty) :=
  (ctx.value_map.find? (fun e => e.1 == name)).map (fun e => e.2)

/-- `lower_value_with_func` (lowering.rs lines 1421-1447).  A variable is
looked up in the scope map (`UndefinedIdentifier` on a miss); a literal is
materialized by allocating a fresh `ValueId` and inserting
`(*const_val as i64, expected_type)` into the function's constants table
(the `as i64` widening of the `i32` payload is the identity on the
represented value).  The Rust `Result<(ValueId, Type), ()>` becomes an
`Option`; the (possibly error-extended) context and function are returned
alongside. -/
def lower_value_with_func (ctx : LoweringContext) (func : Function)
    (value : AstValue) (expected_type : Ty) :
    LoweringContext × Function × Option (Nat × Ty) :=
  match value with
  | .Variable name =>
    match ctx.lookup_variable name with
    | some (value_id, ty) => (ctx, func, some (value_id, ty))
    | none =>
      (ctx.error (.undefinedIdentifier name "variable reference"), func, none)
  | .Constant const_val =>
    let const_value_id := func.next_value_id
    (ctx,
      { func with
        next_value_id := func.next_value_id + 1
        constants := (const_value_id, const_val, expected_type) :: func.constants },
      some (const_value_id, expected_type))

/-- The argument-lowering loops of the `Br`/`BrIf` arms of
`lower_terminator`: each argument is lowered with expected type `I32`
(the source carries a `TODO: infer proper type` here) and a failure
propagates immediately through `?`. -/
def lower_branch_args (ctx : LoweringContext) (func : Function) :
    List AstValue → LoweringContext × Function × Option (List Nat)
  | [] => (ctx, func, some [])
  | arg :: rest =>
    match lower_value_with_func ctx func arg .I32 with
    | (ctx1, func1, none) => (ctx1, func1, none)
    | (ctx1, func1, some (arg_id, _)) =>
      match lower_branch_args ctx1 func1 rest with
      | (ctx2, func2, none) => (ctx2, func2, none)
      | (ctx2, func2, some ids) => (ctx2, func2, some (arg_id :: ids))

/-- `lower_terminator` (lowering.rs lines 1255-1391). -/
def lower_terminator (ctx : LoweringContext) (func : Function)
    (terminator : AstTerminator) :
    LoweringContext × Function × Option Terminator :=
  match terminator with
  | .ret value_opt =>
    match value_opt with
    | some value =>
      let expected_type :=
        match ctx.current_function with
        | some current_func => current_func.return_type
        | none => Ty.I32 -- "Default fallback"
      match lower_value_with_func ctx func value expected_type with
      | (ctx1, func1, none) => (ctx1, func1, none)
      | (ctx1, func1, some (value_id, value_type)) =>
        match ctx1.current_function with
        | some current_func =>
          if value_type ≠ current_func.return_type then
            (ctx1.error (.typeMismatch current_func.return_type value_type "return value"),
              func1, none)
          else
            (ctx1, func1, some (.Ret (some value_id)))
        | none => (ctx1, func1, some (.Ret (some value_id)))
    | none =>
      match ctx.current_function with
      | some current_func =>
        if current_func.return_type ≠ Ty.Void then
          (ctx.error (.typeMismatch current_func.return_type Ty.Void "void return"),
            func, none)
        else
          (ctx, func, some (.Ret none))
      | none => (ctx, func, some (.Ret none))
  | .br label args =>
    match ctx.block_map.find? (fun e => e.1 == label) with
    | some entry =>
      match lower_branch_args ctx func args with
      | (ctx1, func1, none) => (ctx1, func1, none)
      | (ctx1, func1, some lowered_args) =>
        (ctx1, func1, some (.Br entry.2 lowered_args))
    | none =>
      (ctx.error (.undefinedBlock label "branch target"), func, none)
  | .brIf cond true_label true_args false_label false_args =>
    match lower_value_with_func ctx func cond .I32 with
    | (ctx1, func1, none) => (ctx1, func1, none)
    | (ctx1, func1, some (cond_id, cond_type)) =>
      match cond_type with
      | .I32 | .I64 =>
        match ctx1.block_map.find? (fun e => e.1 == true_label) with
        | none =>
          (ctx1.error (.undefinedBlock true_label "true branch target"), func1, none)
        | some true_entry =>
          match ctx1.block_map.find? (fun e => e.1 == false_label) with
          | none =>
            (ctx1.error (.undefinedBlock false_label "false branch target"), func1, none)
          | some false_entry =>
            match lower_branch_args ctx1 func1 true_args with
            | (ctx2, func2, none) => (ctx2, func2, none)
            | (ctx2, func2, some lowered_true_args) =>
              match lower_branch_args ctx2 func2 false_args with
              | (ctx3, func3, none) => (ctx3, func3, none)
              | (ctx3, func3, some lowered_false_args) =>
                (ctx3, func3,
                  some (.BrIf cond_id true_entry.2 lowered_true_args
                    false_entry.2 lowered_false_args))
      | _ =>
        (ctx1.error (.typeMismatch Ty.I32 cond_type "branch condition"), func1, none)

/-! ## Call-stack depth preservation -/

/-- The outcome leaves the call stack at the same depth as the starting
state (for `ok` and `err` outcomes; a panic aborts the process and a
timeout is a model artifact). -/
def stackPreserved (o : VMOut σ) (s : VMState σ) : Prop :=
  match o with
  | .ok _ s1 => s1.call_stack.length = s.call_stack.length
  | .err _ s1 => s1.call_stack.length = s.call_stack.length
  | .panic => True
  | .timeout => True

/-! ## Concrete example programs and lowering inputs

Small well-typed IR programs used to evaluate the embedded VM, JIT
translator and lowerer at specific inputs. -/

/-- `fn ne_test() -> i32`: compares the constant `0` with itself using the
`Ne` operator and returns the result.  Well-typed, host-independent. -/
def neFunction : Function :=
  { name := "ne_test"
    params := []
    return_type := .I32
    blocks := [
      { id := 0, label := "entry", params := []
        instructions := [.BinaryOp 1 .Ne .I32 0 0]
        terminator := .Ret (some 1) }]
    entry_block := 0
    next_value_id := 2
    constants := [(0, 0, .I32)] }

def neProgram : Program :=
  { imports := [], functions := [neFunction] }

/-- `fn rem_zero() -> i32`: computes `1 rem 0` on `i32` constants. -/
def remFunction : Function :=
  { name := "rem_zero"
    params := []
    return_type := .I32
    blocks := [
      { id := 0, label := "entry", params := []
        instructions := [.BinaryOp 2 .Rem .I32 0 1]
        terminator := .Ret (some 2) }]
    entry_block := 0
    next_value_id := 3
    constants := [(0, 1, .I32), (1, 0, .I32)] }

def remProgram : Program :=
  { imports := [], functions := [remFunction] }

/-- `fn jump() -> void`: the entry block branches WITH AN EMPTY ARGUMENT
LIST to a block that declares one `i32` parameter; the target returns
void. -/
def emptyArgsBrFunction : Function :=
  { name := "jump"
    params := []
    return_type := .Void
    blocks := [
      { id := 0, label := "entry", params := []
        instructions := []
        terminator := .Br 1 [] },
      { id := 1, label := "target", params := [(0, .I32)]
        instructions := []
        terminator := .Ret none }]
    entry_block := 0
    next_value_id := 1
    constants := [] }

def emptyArgsBrProgram : Program :=
  { imports := [], functions := [emptyArgsBrFunction] }

/-- First-match lookup in a `constants` side table (the `HashMap::get` of
`Function::constants`). -/
def constantsLookup (cs : List (Nat × Int × Ty)) (id : Nat) : Option (Int × Ty) :=
  (cs.find? (fun e => e.1 == id)).map (fun e => e.2)

/-- A lowering context in the middle of a function body: label `next` maps
to block id 1 and variable `x : i32` maps to value id 0. -/
def brCtx : LoweringContext :=
  { current_function := none
    block_map := [("next", 1)]
    value_map := [("x", 0, .I32)]
    errors := [] }

/-- The function under construction for `brCtx`: its block 1 (`next`)
declares ZERO parameters, so a branch to it carrying one argument is a
parameter-count mismatch. -/
def brFunc : Function :=
  { name := "f"
    params := []
    return_type := .Void
    blocks := [
      { id := 1, label := "next", params := []
        instructions := []
        terminator := .Ret none }]
    entry_block := 0
    next_value_id := 1
    constants := [] }

/-- An empty lowering context/function for lowering a bare literal. -/
def litCtx : LoweringContext :=
  { current_function := none, block_map := [], value_map := [], errors := [] }

def litFunc : Function :=
  { name := "g"
    params := []
    return_type := .I32
    blocks := []
    entry_block := 0
    next_value_id := 0
    constants := [] }

/-- A concrete frame binding value ids 0 and 1 to `i32` values, used to
evaluate `branchTransfer` at specific inputs. -/
def exFrame : Frame :=
  (Frame.new "f" 0).set_value 0 (.I32 7) |>.set_value 1 (.I32 8)

/-- A function whose block 1 declares two `i32` parameters (value ids 5
and 6). -/
def exFunc : Function :=
  { name := "f"
    params := []
    return_type := .Void
    blocks := [
      { id := 1, label := "loop", params := [(5, .I32), (6, .I32)]
        instructions := []
        terminator := .Ret none }]
    entry_block := 0
    next_value_id := 7
    constants := [] }

/-! ## Supporting lemmas -/

theorem wrapI32_eq_self {z : Int} (h : inI32Range z) : wrapI32 z = z := by
  obtain ⟨h1, h2⟩ := h
  unfold wrapI32
  omega

theorem wrapI64_eq_self {z : Int} (h : inI64Range z) : wrapI64 z = z := by
  obtain ⟨h1, h2⟩ := h
  unfold wrapI64
  omega

theorem natToLeBytes_length (n len : Nat) : (natToLeBytes n len).length = len := by
  induction len generalizing n with
  | zero => rfl
  | succ len ih => simp [natToLeBytes, ih]

theorem leBytesToNat_natToLeBytes (n len : Nat) :
    leBytesToNat (natToLeBytes n len) = n % 256 ^ len := by
  induction len generalizing n with
  | zero => simp [natToLeBytes, leBytesToNat, Nat.mod_one]
  | succ len ih =>
    simp only [natToLeBytes, leBytesToNat, ih]
    rw [pow_succ, mul_comm (256 ^ len) 256, Nat.mod_mul]

theorem MemoryHostABI.wf_new : MemoryHostABI.new.wf := by
  constructor
  · intro e he
    simp [MemoryHostABI.new] at he
  · simp [MemoryHostABI.new]

/-- Allocation preserves well-formedness. -/
theorem MemoryHostABI.wf_allocate {s : MemoryHostABI} (h : s.wf) (size : Nat) :
    (s.allocate size).2.wf := by
  obtain ⟨hbound, hdisj⟩ := h
  by_cases hz : size = 0
  · subst hz
    exact ⟨hbound, hdisj⟩
  · unfold MemoryHostABI.allocate
    rw [if_neg hz]
    refine ⟨?_, ?_⟩
    · intro e he
      dsimp only at he
      rcases List.mem_cons.mp he with rfl | he
      · dsimp only
        simp only [List.length_replicate]
        omega
      · have h1 := hbound e he
        dsimp only
        omega
    · dsimp only
      refine List.Pairwise.cons ?_ hdisj
      intro e he
      have h1 := hbound e he
      simp only [List.length_replicate]
      omega

theorem u32OfI32_lt (x : Int) : u32OfI32 x < 4294967296 := by
  unfold u32OfI32
  omega

theorem i32OfU32_u32OfI32 {x : Int} (h : inI32Range x) : i32OfU32 (u32OfI32 x) = x := by
  unfold inI32Range at h
  unfold i32OfU32 u32OfI32
  omega

theorem wrapU64_lt (x : Int) : wrapU64 x < 18446744073709551616 := by
  unfold wrapU64
  omega

theorem i64OfU64_wrapU64 {x : Int} (h : inI64Range x) : i64OfU64 (wrapU64 x) = x := by
  unfold inI64Range at h
  unfold i64OfU64 wrapU64
  omega

theorem writeBytesAt_zero (data bytes : List Nat) :
    writeBytesAt data 0 bytes = bytes ++ data.drop bytes.length := by
  simp [writeBytesAt]

/-- Writing `bytes` at the base of a freshly allocated zero-filled buffer
of size `size ≥ bytes.length` succeeds and yields the explicitly described
state; reading `bytes.length` bytes back from the same address returns
exactly `bytes`. -/
theorem allocate_write_read (s : MemoryHostABI) (size : Nat) (bytes : List Nat)
    (h0 : size ≠ 0) (hlen : bytes.length ≤ size) :
    ((s.allocate size).2).write_memory (s.allocate size).1 bytes =
      .ok { memory := (s.next_addr, bytes ++ List.replicate (size - bytes.length) 0) :: s.memory
            next_addr := s.next_addr + size + 8 } ∧
    MemoryHostABI.read_memory
      { memory := (s.next_addr, bytes ++ List.replicate (size - bytes.length) 0) :: s.memory
        next_addr := s.next_addr + size + 8 } s.next_addr bytes.length = .ok bytes := by
  unfold MemoryHostABI.allocate
  rw [if_neg h0]
  constructor
  · unfold MemoryHostABI.write_memory writeMemGo
    rw [if_pos (by simp [List.length_replicate]; omega)]
    rw [Nat.sub_self, writeBytesAt_zero, List.drop_replicate]
  · unfold MemoryHostABI.read_memory
    rw [List.find?_cons_of_pos _ (by simp [List.length_replicate])]
    dsimp only
    rw [Nat.sub_self, List.drop_zero]
    exact congrArg Except.ok (List.take_left bytes _)

/-- `bindBlockParams` touches only the value map: the frame's block and
instruction pointer are unchanged. -/
theorem bindBlockParams_current_block :
    ∀ (params : List (Nat × Ty)) (vals : List RuntimeValue) (f : Frame),
      (bindBlockParams f params vals).current_block = f.current_block := by
  intro params
  induction params with
  | nil => intro vals f; cases vals <;> rfl
  | cons p ps ih =>
    intro vals f
    cases vals with
    | nil => rfl
    | cons v vs => simpa [bindBlockParams] using ih vs (f.set_value p.1 v)

theorem bindBlockParams_instruction_pointer :
    ∀ (params : List (Nat × Ty)) (vals : List RuntimeValue) (f : Frame),
      (bindBlockParams f params vals).instruction_pointer = f.instruction_pointer := by
  intro params
  induction params with
  | nil => intro vals f; cases vals <;> rfl
  | cons p ps ih =>
    intro vals f
    cases vals with
    | nil => rfl
    | cons v vs => simpa [bindBlockParams] using ih vs (f.set_value p.1 v)

/-- Binding a parameter list leaves keys outside the list untouched. -/
theorem bindBlockParams_values_not_mem :
    ∀ (params : List (Nat × Ty)) (vals : List RuntimeValue) (f : Frame) (k : Nat),
      k ∉ params.map Prod.fst →
      (bindBlockParams f params vals).values k = f.values k := by
  intro params
  induction params with
  | nil => intro vals f k _; cases vals <;> rfl
  | cons p ps ih =>
    intro vals f k hk
    simp only [List.map_cons, List.mem_cons] at hk
    push_neg at hk
    cases vals with
    | nil => rfl
    | cons v vs =>
      simp only [bindBlockParams]
      rw [ih vs (f.set_value p.1 v) k hk.2]
      simp [Frame.set_value, hk.1]

/-- `bindBlockParams` binds parameters positionally: when the parameter
ids are distinct and the value list is at least as long, parameter `i`
ends up bound to value `i`. -/
theorem bindBlockParams_get :
    ∀ (params : List (Nat × Ty)) (vals : List RuntimeValue) (f : Frame)
      (hnodup : (params.map Prod.fst).Nodup)
      (i : Nat) (hi : i < params.length) (hv : i < vals.length),
      (bindBlockParams f params vals).values (params.get ⟨i, hi⟩).1 =
        some (vals.get ⟨i, hv⟩) := by
  intro params
  induction params with
  | nil => intro vals f _ i hi _; exact absurd hi (by simp)
  | cons p ps ih =>
    intro vals f hnodup i hi hv
    cases vals with
    | nil => exact absurd hv (by simp)
    | cons v vs =>
      simp only [List.map_cons, List.nodup_cons] at hnodup
      cases i with
      | zero =>
        simp only [bindBlockParams, List.get]
        rw [bindBlockParams_values_not_mem ps vs (f.set_value p.1 v) p.1 hnodup.1]
        simp [Frame.set_value]
      | succ j =>
        simp only [bindBlockParams, List.get]
        exact ih vs (f.set_value p.1 v) hnodup.2 j (by simpa using hi) (by simpa using hv)

/-- `lower_value_with_func` can append only `UndefinedIdentifier` errors. -/
theorem lower_value_with_func_errors (ctx : LoweringContext) (func : Function)
    (v : AstValue) (t : Ty) (e : SemanticError)
    (he : e ∈ (lower_value_with_func ctx func v t).1.errors) :
    e ∈ ctx.errors ∨ ∃ n l, e = .undefinedIdentifier n l := by
  cases v with
  | Variable name =>
    cases hl : ctx.lookup_variable name with
    | some p =>
      simp only [lower_value_with_func, hl] at he
      exact .inl he
    | none =>
      simp only [lower_value_with_func, hl, LoweringContext.error] at he
      rcases List.mem_append.mp he with h1 | h1
      · exact .inl h1
      · simp only [List.mem_singleton] at h1
        exact .inr ⟨_, _, h1⟩
  | Constant c =>
    simp only [lower_value_with_func] at he
    exact .inl he

/-- `lower_branch_args` can append only `UndefinedIdentifier` errors. -/
theorem lower_branch_args_errors :
    ∀ (args : List AstValue) (ctx : LoweringContext) (func : Function) (e : SemanticError),
      e ∈ (lower_branch_args ctx func args).1.errors →
      e ∈ ctx.errors ∨ ∃ n l, e = .undefinedIdentifier n l := by
  intro args
  induction args with
  | nil => intro ctx func e he; exact .inl he
  | cons arg rest ih =>
    intro ctx func e he
    simp only [lower_branch_args] at he
    rcases hlv : lower_value_with_func ctx func arg .I32 with ⟨ctx1, func1, o⟩
    rw [hlv] at he
    have hv : ∀ e1, e1 ∈ ctx1.errors → e1 ∈ ctx.errors ∨ ∃ n l, e1 = .undefinedIdentifier n l := by
      intro e1 he1
      exact lower_value_with_func_errors ctx func arg .I32 e1 (by rw [hlv]; exact he1)
    cases o with
    | none => exact hv e he
    | some p =>
      rcases p with ⟨arg_id, ty1⟩
      dsimp only at he
      rcases hrest : lower_branch_args ctx1 func1 rest with ⟨ctx2, func2, o2⟩
      rw [hrest] at he
      have h2 : e ∈ ctx2.errors := by
        cases o2 <;> exact he
      have h3 := ih ctx1 func1 e (by rw [hrest]; exact h2)
      rcases h3 with h3 | h3
      · exact hv e h3
      · exact .inr h3

theorem stackPreserved_congr {o : VMOut σ} {s t : VMState σ}
    (h : stackPreserved o t) (hlen : t.call_stack.length = s.call_stack.length) :
    stackPreserved o s := by
  cases o <;> simp [stackPreserved] at h ⊢ <;> omega

theorem vmRun_preserves_stack_length (abi : HostABIModel σ) (checks : Bool) :
    ∀ (fuel : Nat) (req : VMReq σ), stackPreserved (vmRun abi checks fuel req) req.state := by
  intro fuel
  induction fuel with
  | zero => intro req; exact trivial
  | succ fuel ih =>
    have ihok : ∀ (req : VMReq σ) (v : RuntimeValue) (s1 : VMState σ),
        vmRun abi checks fuel req = .ok v s1 →
        s1.call_stack.length = req.state.call_stack.length := by
      intro req v s1 h
      have h1 := ih req
      rw [h] at h1
      exact h1
    have iherr : ∀ (req : VMReq σ) (e : VMError) (s1 : VMState σ),
        vmRun abi checks fuel req = .err e s1 →
        s1.call_stack.length = req.state.call_stack.length := by
      intro req e s1 h
      have h1 := ih req
      rw [h] at h1
      exact h1
    intro req
    match req with
    | .call s name args =>
      show stackPreserved (vmRun abi checks (fuel + 1) (.call s name args)) s
      simp only [vmRun]
      split
      · simp [stackPreserved]
      · split
        · simp [stackPreserved]
        · split
          · simp [stackPreserved]
          · split
            · simp [stackPreserved]
            · split
              · simp [stackPreserved]
              · split
                · simp [stackPreserved]
                · split
                  · -- the pushed frame's execution returned Ok; it is popped
                    rename_i v s1 heq
                    have h2 := ihok _ _ _ heq
                    simp only [VMReq.state] at h2
                    simp only [List.length_cons] at h2
                    simp only [stackPreserved, List.length_tail]
                    omega
                  · -- the pushed frame's execution returned Err; it is popped
                    rename_i e s1 heq
                    have h2 := iherr _ _ _ heq
                    simp only [VMReq.state] at h2
                    simp only [List.length_cons] at h2
                    simp only [stackPreserved, List.length_tail]
                    omega
                  · exact trivial
                  · exact trivial
    | .exec s =>
      show stackPreserved (vmRun abi checks (fuel + 1) (.exec s)) s
      simp only [vmRun]
      split
      · exact trivial
      · rename_i frame rest hstack
        split
        · exact trivial
        · split
          · simp [stackPreserved]
          · split
            · -- at the terminator
              split
              · -- Ret
                split
                · split
                  · simp [stackPreserved]
                  · simp [stackPreserved]
                · simp [stackPreserved]
              · -- Br
                split
                · simp [stackPreserved]
                · exact stackPreserved_congr (ih _) (by simp [VMReq.state, hstack])
              · -- BrIf
                split
                · simp [stackPreserved]
                · split
                  · simp [stackPreserved]
                  · split
                    · simp [stackPreserved]
                    · exact stackPreserved_congr (ih _) (by simp [VMReq.state, hstack])
            · -- at an instruction
              split
              · exact trivial
              · split
                · -- the instruction succeeded; ip advances
                  rename_i instruction hget v s1 heq
                  split
                  · exact trivial
                  · rename_i f1 r1 hs1
                    have h2 := ihok _ _ _ heq
                    simp only [VMReq.state] at h2
                    refine stackPreserved_congr (ih _) ?_
                    simp only [VMReq.state, List.length_cons]
                    rw [hs1] at h2
                    simp only [List.length_cons] at h2
                    omega
                · -- the instruction failed
                  rename_i instruction hget e s1 heq
                  have h2 := iherr _ _ _ heq
                  simp only [VMReq.state] at h2
                  simpa [stackPreserved] using h2
                · exact trivial
                · exact trivial
    | .instr s i =>
      show stackPreserved (vmRun abi checks (fuel + 1) (.instr s i)) s
      simp only [vmRun]
      split
      · exact trivial
      · rename_i frame rest hstack
        split
        · -- Call
          split
          · simp [stackPreserved]
          · split
            · -- host function path
              split
              · simp [stackPreserved]
              · simp [stackPreserved, hstack]
            · -- recursive TILT call path
              split
              · rename_i result s1 heq
                split
                · exact trivial
                · rename_i f1 r1 hs1
                  have h2 := ihok _ _ _ heq
                  simp only [VMReq.state] at h2
                  rw [hs1] at h2
                  simp only [stackPreserved, List.length_cons]
                  simp only [List.length_cons] at h2
                  omega
              · rename_i e s1 heq
                have h2 := iherr _ _ _ heq
                simp only [VMReq.state] at h2
                simpa [stackPreserved] using h2
              · exact trivial
              · exact trivial
        · -- CallVoid
          split
          · simp [stackPreserved]
          · split
            · split
              · simp [stackPreserved]
              · simp [stackPreserved]
            · split
              · rename_i result s1 heq
                have h2 := ihok _ _ _ heq
                simp only [VMReq.state] at h2
                simpa [stackPreserved] using h2
              · rename_i e s1 heq
                have h2 := iherr _ _ _ heq
                simp only [VMReq.state] at h2
                simpa [stackPreserved] using h2
              · exact trivial
              · exact trivial
        · -- Const
          split
          · simp [stackPreserved]
          · simp [stackPreserved, hstack]
        · -- BinaryOp
          split
          · simp [stackPreserved]
          · split
            · simp [stackPreserved]
            · split
              · simp [stackPreserved]
              · exact trivial
              · simp [stackPreserved, hstack]
        · -- UnaryOp
          simp [stackPreserved]
        · -- Load
          split
          · simp [stackPreserved]
          · split
            · split
              · simp [stackPreserved]
              · simp [stackPreserved, hstack]
            · simp [stackPreserved]
        · -- Store
          split
          · simp [stackPreserved]
          · split
            · simp [stackPreserved]
            · split
              · split
                · simp [stackPreserved]
                · simp [stackPreserved]
              · simp [stackPreserved]
        · -- PtrAdd
          split
          · simp [stackPreserved]
          · split
            · simp [stackPreserved]
            · split
              · simp [stackPreserved, hstack]
              · simp [stackPreserved]
        · -- SizeOf
          simp [stackPreserved, hstack]
        · -- Alloc
          split
          · simp [stackPreserved]
          · split
            · split
              · simp [stackPreserved]
              · simp [stackPreserved, hstack]
            · simp [stackPreserved]
        · -- Free
          split
          · simp [stackPreserved]
          · split
            · split
              · simp [stackPreserved]
              · simp [stackPreserved]
            · simp [stackPreserved]
        · -- Convert
          split
          · simp [stackPreserved]
          · split
            · simp [stackPreserved]
            · split <;> simp [stackPreserved, hstack]

/-! ## Claim theorems -/

/-- C1: the spec demands `VM(P, args) == JIT(P, args)` for every well-typed
host-independent program, but on the well-typed program `ne_test` (which
compares two equal `i32` constants with `Ne`) the VM returns
`Err(InvalidInstruction("Binary operator Ne not yet implemented"))` while
the JIT translator compiles `Ne` successfully into a native
`icmp NotEqual` + `uextend` sequence, whose execution returns `I32(0)`:
the two backends observably diverge. -/
theorem claim1_vm_jit_divergence_on_ne :
    (call_function NullHostABI true 16 (VMState.new neProgram ()) "ne_test" []).error?
        = some (.invalidInstruction "Binary operator Ne not yet implemented") ∧
    (call_function NullHostABI true 16 (VMState.new neProgram ()) "ne_test" []).value? = none ∧
    jitTranslateBinaryOp .Ne .I32 = .ok (.icmpUextend .NotEqual) :=
  ⟨rfl, rfl, rfl⟩

/-- C2: the claim (and the spec) require `Add`/`Sub`/`Mul` on `i32`/`i64`
to wrap modulo 2^N, but the VM uses the unchecked Rust operators, so with
overflow checks enabled (the default `dev`/`test` profile under which the
repository's own test suite runs) `i32` addition of `2147483647` and `1`
panics instead of producing the wrapped value `-2147483648`; only with
checks disabled does it wrap, and only the `Usize` arm uses `wrapping_add`
unconditionally. -/
theorem claim2_i32_add_overflow_panics_in_checked_profile :
    vmBinaryOp true .Add (.I32 2147483647) (.I32 1) = .panic ∧
    vmBinaryOp false .Add (.I32 2147483647) (.I32 1) = .ok (.I32 (-2147483648)) ∧
    vmBinaryOp true .Add (.Usize 18446744073709551615) (.Usize 1) = .ok (.Usize 0) := by
  refine ⟨by decide, by decide, by decide⟩

/-- C3 (counterexample): the claim says every comparison operator
(`Eq`, `Ne`, `Lt`, `Le`, `Gt`, `Ge`) executes successfully and yields
`I32(0)`/`I32(1)`, but `Ne` on two equal `i32` operands is rejected by the
VM with `InvalidInstruction` instead of succeeding with `I32(0)`. -/
theorem claim3_counterexample_ne_errors :
    vmBinaryOp true .Ne (.I32 0) (.I32 0)
        = .err (.invalidInstruction "Binary operator Ne not yet implemented") ∧
    vmBinaryOp true .Ne (.I32 0) (.I32 0) ≠ .ok (.I32 0) := by
  refine ⟨by decide, by decide⟩

/-- C3 (amended): of the six comparison operators the VM implements only
`Eq` and `Lt`; those two succeed on same-type integer operands
(`I32`, `I64`, `Usize`) with `I32(1)` when the comparison holds and
`I32(0)` when it does not, while `Ne`, `Le`, `Gt` and `Ge` always return
`InvalidInstruction("... not yet implemented")`. -/
theorem claim3_amended_eq_lt_implemented (checks : Bool) (a b : Int) (m n : Nat) :
    vmBinaryOp checks .Eq (.I32 a) (.I32 b) = .ok (.I32 (if a = b then 1 else 0)) ∧
    vmBinaryOp checks .Eq (.I64 a) (.I64 b) = .ok (.I32 (if a = b then 1 else 0)) ∧
    vmBinaryOp checks .Eq (.Usize m) (.Usize n) = .ok (.I32 (if m = n then 1 else 0)) ∧
    vmBinaryOp checks .Lt (.I32 a) (.I32 b) = .ok (.I32 (if a < b then 1 else 0)) ∧
    vmBinaryOp checks .Lt (.I64 a) (.I64 b) = .ok (.I32 (if a < b then 1 else 0)) ∧
    vmBinaryOp checks .Lt (.Usize m) (.Usize n) = .ok (.I32 (if m < n then 1 else 0)) ∧
    (∀ l r : RuntimeValue,
      vmBinaryOp checks .Ne l r
          = .err (.invalidInstruction "Binary operator Ne not yet implemented") ∧
      vmBinaryOp checks .Le l r
          = .err (.invalidInstruction "Binary operator Le not yet implemented") ∧
      vmBinaryOp checks .Gt l r
          = .err (.invalidInstruction "Binary operator Gt not yet implemented") ∧
      vmBinaryOp checks .Ge l r
          = .err (.invalidInstruction "Binary operator Ge not yet implemented")) :=
  ⟨rfl, rfl, rfl, rfl, rfl, rfl, fun _ _ => ⟨rfl, rfl, rfl, rfl⟩⟩

/-- C4 (counterexample): the claim says `Div` or `Rem` with a zero divisor
returns exactly `DivisionByZero`, but executing the well-typed program
`rem_zero` (computing `1 rem 0` on `i32`) through the VM returns
`InvalidInstruction("Binary operator Rem not yet implemented")`, not
`DivisionByZero`. -/
theorem claim4_counterexample_rem_zero :
    (call_function NullHostABI true 16 (VMState.new remProgram ()) "rem_zero" []).error?
        = some (.invalidInstruction "Binary operator Rem not yet implemented") ∧
    (call_function NullHostABI true 16 (VMState.new remProgram ()) "rem_zero" []).error?
        ≠ some .divisionByZero := by
  refine ⟨by rfl, by decide⟩

/-- C4 (amended): `Div` on same-type integer operands with a zero divisor
returns exactly `DivisionByZero` for all three integer types, while `Rem`
is not implemented by the VM and returns `InvalidInstruction` for every
operand pair, zero divisor or not. -/
theorem claim4_amended_div_by_zero (checks : Bool) (a : Int) (m : Nat) :
    vmBinaryOp checks .Div (.I32 a) (.I32 0) = .err .divisionByZero ∧
    vmBinaryOp checks .Div (.I64 a) (.I64 0) = .err .divisionByZero ∧
    vmBinaryOp checks .Div (.Usize m) (.Usize 0) = .err .divisionByZero ∧
    (∀ l r : RuntimeValue,
      vmBinaryOp checks .Rem l r
          = .err (.invalidInstruction "Binary operator Rem not yet implemented")) :=
  ⟨rfl, rfl, rfl, fun _ _ => rfl⟩

/-- C5 (counterexample): the claim says the lowerer checks branch-argument
count and types against the target block's parameters for `Br` and `BrIf`,
but lowering a `br` that passes ONE argument to the label `next` — whose
block declares ZERO parameters in the function under construction —
succeeds with no semantic error at all, and so does a `br_if` whose taken
arm passes that same mismatched argument list: `lower_terminator` never
consults the target's parameter list. -/
theorem claim5_counterexample_no_branch_arg_check :
    (lower_terminator brCtx brFunc (.br "next" [.Variable "x"])).1.errors = [] ∧
    (lower_terminator brCtx brFunc (.br "next" [.Variable "x"])).2.2 = some (.Br 1 [0]) ∧
    (lower_terminator brCtx brFunc
        (.brIf (.Variable "x") "next" [.Variable "x"] "next" [])).1.errors = [] ∧
    (lower_terminator brCtx brFunc
        (.brIf (.Variable "x") "next" [.Variable "x"] "next" [])).2.2
      = some (.BrIf 0 1 [0] 1 []) :=
  ⟨rfl, rfl, rfl, rfl⟩

/-- C5 (amended): for `Br` and `BrIf` terminators the lowerer resolves the
target labels (emitting `UndefinedBlock` when unknown) and lowers the
arguments (emitting `UndefinedIdentifier` for unknown variables), and for
`BrIf` it additionally requires the condition to have type `I32` or `I64`
(emitting a `TypeMismatch` located at "branch condition" otherwise) — but
it performs no argument-count or argument-type check against the target
blocks' parameters: lowering a `Br` can add only `UndefinedBlock` or
`UndefinedIdentifier` errors, and lowering a `BrIf` can additionally add
only the condition `TypeMismatch`; neither ever emits `ArgumentMismatch`,
and no `TypeMismatch` about branch arguments exists. -/
theorem claim5_amended_branch_lowering_errors
    (ctx : LoweringContext) (func : Function) (e : SemanticError) :
    (∀ (label : String) (args : List AstValue),
      e ∈ (lower_terminator ctx func (.br label args)).1.errors →
      e ∈ ctx.errors ∨ (∃ n l, e = .undefinedBlock n l) ∨
        (∃ n l, e = .undefinedIdentifier n l)) ∧
    (∀ (cond : AstValue) (true_label : String) (true_args : List AstValue)
        (false_label : String) (false_args : List AstValue),
      e ∈ (lower_terminator ctx func
            (.brIf cond true_label true_args false_label false_args)).1.errors →
      e ∈ ctx.errors ∨ (∃ n l, e = .undefinedBlock n l) ∨
        (∃ n l, e = .undefinedIdentifier n l) ∨
        (∃ t, e = .typeMismatch .I32 t "branch condition")) := by
  constructor
  · intro label args he
    simp only [lower_terminator] at he
    cases hfind : ctx.block_map.find? (fun e => e.1 == label) with
    | some entry =>
      rw [hfind] at he
      rcases hargs : lower_branch_args ctx func args with ⟨ctx1, func1, o⟩
      rw [hargs] at he
      have h1 : e ∈ ctx1.errors := by cases o <;> exact he
      rcases lower_branch_args_errors args ctx func e (by rw [hargs]; exact h1) with h2 | h2
      · exact .inl h2
      · exact .inr (.inr h2)
    | none =>
      rw [hfind] at he
      simp only [LoweringContext.error] at he
      rcases List.mem_append.mp he with h1 | h1
      · exact .inl h1
      · simp only [List.mem_singleton] at h1
        exact .inr (.inl ⟨_, _, h1⟩)
  · intro cond true_label true_args false_label false_args he
    simp only [lower_terminator] at he
    rcases hcv : lower_value_with_func ctx func cond .I32 with ⟨ctx1, func1, o⟩
    rw [hcv] at he
    have hv : ∀ e1, e1 ∈ ctx1.errors →
        e1 ∈ ctx.errors ∨ ∃ n l, e1 = .undefinedIdentifier n l := fun e1 he1 =>
      lower_value_with_func_errors ctx func cond .I32 e1 (by rw [hcv]; exact he1)
    cases o with
    | none =>
      rcases hv e he with h | h
      · exact .inl h
      · exact .inr (.inr (.inl h))
    | some p =>
      rcases p with ⟨cond_id, cond_type⟩
      dsimp only at he
      cases cond_type
      case F32 | F64 | Usize | Void =>
        dsimp only [LoweringContext.error] at he
        rcases List.mem_append.mp he with h | h
        · rcases hv e h with h2 | h2
          · exact .inl h2
          · exact .inr (.inr (.inl h2))
        · simp only [List.mem_singleton] at h
          exact .inr (.inr (.inr ⟨_, h⟩))
      all_goals
        dsimp only at he
        cases hft : ctx1.block_map.find? (fun e => e.1 == true_label) with
        | none =>
          rw [hft] at he
          dsimp only [LoweringContext.error] at he
          rcases List.mem_append.mp he with h | h
          · rcases hv e h with h2 | h2
            · exact .inl h2
            · exact .inr (.inr (.inl h2))
          · simp only [List.mem_singleton] at h
            exact .inr (.inl ⟨_, _, h⟩)
        | some true_entry =>
          rw [hft] at he
          dsimp only at he
          cases hff : ctx1.block_map.find? (fun e => e.1 == false_label) with
          | none =>
            rw [hff] at he
            dsimp only [LoweringContext.error] at he
            rcases List.mem_append.mp he with h | h
            · rcases hv e h with h2 | h2
              · exact .inl h2
              · exact .inr (.inr (.inl h2))
            · simp only [List.mem_singleton] at h
              exact .inr (.inl ⟨_, _, h⟩)
          | some false_entry =>
            rw [hff] at he
            dsimp only at he
            rcases hta : lower_branch_args ctx1 func1 true_args with ⟨ctx2, func2, o2⟩
            rw [hta] at he
            have hta2 : ∀ e1, e1 ∈ ctx2.errors →
                e1 ∈ ctx1.errors ∨ ∃ n l, e1 = .undefinedIdentifier n l := fun e1 he1 =>
              lower_branch_args_errors true_args ctx1 func1 e1 (by rw [hta]; exact he1)
            cases o2 with
            | none =>
              rcases hta2 e he with h | h
              · rcases hv e h with h2 | h2
                · exact .inl h2
                · exact .inr (.inr (.inl h2))
              · exact .inr (.inr (.inl h))
            | some ids1 =>
              dsimp only at he
              rcases hfa : lower_branch_args ctx2 func2 false_args with ⟨ctx3, func3, o3⟩
              rw [hfa] at he
              have hfa2 : ∀ e1, e1 ∈ ctx3.errors →
                  e1 ∈ ctx2.errors ∨ ∃ n l, e1 = .undefinedIdentifier n l := fun e1 he1 =>
                lower_branch_args_errors false_args ctx2 func2 e1 (by rw [hfa]; exact he1)
              have h3 : e ∈ ctx3.errors := by cases o3 <;> exact he
              rcases hfa2 e h3 with h | h
              · rcases hta2 e h with h4 | h4
                · rcases hv e h4 with h5 | h5
                  · exact .inl h5
                  · exact .inr (.inr (.inl h5))
                · exact .inr (.inr (.inl h4))
              · exact .inr (.inr (.inl h))

theorem claim5_amended_branch_lowering_errors_witness :
    ((SemanticError.undefinedBlock "missing" "branch target")
        ∈ (lower_terminator brCtx brFunc (.br "missing" [])).1.errors ∧
      ((SemanticError.undefinedBlock "missing" "branch target") ∈ brCtx.errors ∨
        (∃ n l, SemanticError.undefinedBlock "missing" "branch target"
            = SemanticError.undefinedBlock n l) ∨
        (∃ n l, SemanticError.undefinedBlock "missing" "branch target"
            = SemanticError.undefinedIdentifier n l))) ∧
    ((SemanticError.undefinedBlock "missing" "true branch target")
        ∈ (lower_terminator brCtx brFunc
            (.brIf (.Variable "x") "missing" [] "next" [])).1.errors ∧
      ((SemanticError.undefinedBlock "missing" "true branch target") ∈ brCtx.errors ∨
        (∃ n l, SemanticError.undefinedBlock "missing" "true branch target"
            = SemanticError.undefinedBlock n l) ∨
        (∃ n l, SemanticError.undefinedBlock "missing" "true branch target"
            = SemanticError.undefinedIdentifier n l) ∨
        (∃ t, SemanticError.undefinedBlock "missing" "true branch target"
            = SemanticError.typeMismatch .I32 t "branch condition"))) :=
  ⟨⟨by decide,
      (claim5_amended_branch_lowering_errors brCtx brFunc
          (.undefinedBlock "missing" "branch target")).1 "missing" [] (by decide)⟩,
    ⟨by decide,
      (claim5_amended_branch_lowering_errors brCtx brFunc
          (.undefinedBlock "missing" "true branch target")).2
        (.Variable "x") "missing" [] "next" [] (by decide)⟩⟩

/-- C6 (counterexample): the claim says the VM checks the target block's
parameter count against the branch's argument count even when the argument
list is empty; but executing `jump` — whose entry block branches with NO
arguments to a block declaring one `i32` parameter — succeeds and returns
`Void` instead of surfacing an error: the check is skipped entirely for
empty argument lists. -/
theorem claim6_counterexample_empty_args_unchecked :
    (call_function NullHostABI true 16 (VMState.new emptyArgsBrProgram ()) "jump" []).value?
        = some .Void ∧
    (call_function NullHostABI true 16 (VMState.new emptyArgsBrProgram ()) "jump" []).error?
        = none :=
  ⟨rfl, rfl⟩

/-- C6 (amended): the VM's branch transfer verifies the parameter count
only when the argument list is non-empty.  With an empty argument list it
jumps unconditionally (no lookup, no check, even if the target declares
parameters); with a non-empty list it surfaces `InvalidInstruction` on a
count mismatch, and on a match it jumps to the target with instruction
pointer 0 and binds each target parameter positionally to the
corresponding resolved argument value. -/
theorem claim6_amended_branch_transfer (function : Function) (frame : Frame)
    (target : Nat) (args : List Nat) (target_block : BasicBlock)
    (arg_values : List RuntimeValue) :
    (args = [] →
      branchTransfer function frame target args
        = .ok { frame with current_block := target, instruction_pointer := 0 }) ∧
    (args ≠ [] →
      function.blocks.find? (fun b => b.id == target) = some target_block →
      args.length ≠ target_block.params.length →
      branchTransfer function frame target args
        = .error (.invalidInstruction
            ("Block parameter count mismatch: expected " ++
              toString target_block.params.length ++ ", got " ++ toString args.length))) ∧
    (args ≠ [] →
      function.blocks.find? (fun b => b.id == target) = some target_block →
      args.length = target_block.params.length →
      collectArgValues frame args = .ok arg_values →
      branchTransfer function frame target args
          = .ok (bindBlockParams
              { frame with current_block := target, instruction_pointer := 0 }
              target_block.params arg_values) ∧
      (bindBlockParams { frame with current_block := target, instruction_pointer := 0 }
          target_block.params arg_values).current_block = target ∧
      (bindBlockParams { frame with current_block := target, instruction_pointer := 0 }
          target_block.params arg_values).instruction_pointer = 0 ∧
      ((target_block.params.map Prod.fst).Nodup →
        ∀ (i : Nat) (hi : i < target_block.params.length) (hv : i < arg_values.length),
          (bindBlockParams { frame with current_block := target, instruction_pointer := 0 }
              target_block.params arg_values).values (target_block.params.get ⟨i, hi⟩).1
            = some (arg_values.get ⟨i, hv⟩))) := by
  refine ⟨?_, ?_, ?_⟩
  · intro h
    subst h
    simp [branchTransfer]
  · intro hne hfind hmismatch
    simp only [branchTransfer]
    rw [if_neg (by simpa [List.isEmpty_iff] using hne), hfind]
    dsimp only
    rw [if_pos hmismatch]
  · intro hne hfind hlen hcollect
    refine ⟨?_, ?_, ?_, ?_⟩
    · simp only [branchTransfer]
      rw [if_neg (by simpa [List.isEmpty_iff] using hne), hfind]
      dsimp only
      rw [if_neg (by simp [hlen]), hcollect]
    · rw [bindBlockParams_current_block]
    · rw [bindBlockParams_instruction_pointer]
    · intro hnodup i hi hv
      exact bindBlockParams_get target_block.params arg_values _ hnodup i hi hv

theorem claim6_amended_branch_transfer_witness :
    (([0] : List Nat) ≠ []) ∧
    exFunc.blocks.find? (fun b => b.id == 1)
        = some { id := 1, label := "loop", params := [(5, .I32), (6, .I32)]
                 instructions := [], terminator := .Ret none } ∧
    ([0] : List Nat).length ≠
      ({ id := 1, label := "loop", params := [(5, Ty.I32), (6, Ty.I32)]
         instructions := [], terminator := .Ret none } : BasicBlock).params.length ∧
    branchTransfer exFunc exFrame 1 [0]
        = .error (.invalidInstruction "Block parameter count mismatch: expected 2, got 1") :=
  ⟨by decide, by decide, by decide,
    (claim6_amended_branch_transfer exFunc exFrame 1 [0]
        { id := 1, label := "loop", params := [(5, .I32), (6, .I32)]
          instructions := [], terminator := .Ret none } []).2.1
      (by decide) (by decide) (by decide)⟩

/-- C7 (counterexample): the claim says literals are represented as signed
64-bit integers so that every `i64`-representable value survives into the
IR constant tables; but the AST stores literals in an `i32` field, so the
`i64`-representable value `2147483648 = 2^31` can never appear in the
constants table produced by lowering a well-formed AST literal. -/
theorem claim7_counterexample_literal_out_of_i32_range :
    inI64Range 2147483648 ∧
    ¬ ∃ v : AstValue, v.wf ∧
        constantsLookup (lower_value_with_func litCtx litFunc v .I64).2.1.constants
            litFunc.next_value_id = some (2147483648, .I64) := by
  refine ⟨by decide, ?_⟩
  rintro ⟨v, hwf, hlook⟩
  cases v with
  | Variable name =>
    simp [lower_value_with_func, LoweringContext.lookup_variable, litCtx,
      constantsLookup, litFunc] at hlook
  | Constant c =>
    simp [lower_value_with_func, litFunc, constantsLookup] at hlook
    simp only [AstValue.wf, inI32Range] at hwf
    omega

/-- C7 (amended): AST literals are signed 32-bit; every value representable
in `i32` is preserved exactly by lowering: the literal is materialized at
the fresh value id with its expected type and its numeric value unchanged
(the `as i64` widening is the identity on `i32`-range values), and no
semantic error is emitted. -/
theorem claim7_amended_i32_literals_preserved (ctx : LoweringContext) (func : Function)
    (c : Int) (ty : Ty) (h : inI32Range c) :
    (lower_value_with_func ctx func (.Constant c) ty).1 = ctx ∧
    (lower_value_with_func ctx func (.Constant c) ty).2.2 = some (func.next_value_id, ty) ∧
    constantsLookup (lower_value_with_func ctx func (.Constant c) ty).2.1.constants
        func.next_value_id = some (c, ty) := by
  refine ⟨rfl, rfl, ?_⟩
  simp [lower_value_with_func, constantsLookup]

theorem claim7_amended_i32_literals_preserved_witness :
    inI32Range 42 ∧
    (lower_value_with_func litCtx litFunc (.Constant 42) .I32).1 = litCtx ∧
    (lower_value_with_func litCtx litFunc (.Constant 42) .I32).2.2 = some (0, .I32) ∧
    constantsLookup (lower_value_with_func litCtx litFunc (.Constant 42) .I32).2.1.constants 0
        = some (42, .I32) :=
  ⟨by decide,
    (claim7_amended_i32_literals_preserved litCtx litFunc 42 .I32 (by decide)).1,
    (claim7_amended_i32_literals_preserved litCtx litFunc 42 .I32 (by decide)).2.1,
    (claim7_amended_i32_literals_preserved litCtx litFunc 42 .I32 (by decide)).2.2⟩

/-- C8: for the interpreter memory host ABI, writing a value of type `T`
(`T` in `I32`, `I64`, `Usize`) at an address freshly returned by `alloc`
with a size large enough for `T` and reading `T` back at the same address
returns exactly the written value.  The `hwf` hypothesis (allocations
disjoint and below `next_addr`, true of every reachable allocator state)
makes the association-list model agree with Rust's arbitrary `HashMap`
iteration order. -/
theorem claim8_memory_store_load_roundtrip (s : MemoryHostABI) (ty : Ty) (size : Nat)
    (v : RuntimeValue) (hwf : s.wf)
    (hty : ty = .I32 ∨ ty = .I64 ∨ ty = .Usize)
    (hv : v.get_type = ty) (hrange : v.inRange) (hsize : sizeOfTy ty ≤ size) :
    ∃ s2, ((s.allocate size).2).write_value (s.allocate size).1 v = .ok s2 ∧
      s2.read_value (s.allocate size).1 ty = .ok v := by
  have h256_4 : (256 : Nat) ^ 4 = 4294967296 := by norm_num
  have h256_8 : (256 : Nat) ^ 8 = 18446744073709551616 := by norm_num
  rcases hty with rfl | rfl | rfl
  · -- I32
    simp only [sizeOfTy] at hsize
    cases v with
    | I32 x =>
      have hz : size ≠ 0 := by omega
      have hp : (s.allocate size).1 = s.next_addr := by
        unfold MemoryHostABI.allocate
        rw [if_neg hz]
      obtain ⟨hw, hr⟩ := allocate_write_read s size (natToLeBytes (u32OfI32 x) 4)
        hz (by rw [natToLeBytes_length]; omega)
      rw [natToLeBytes_length] at hw hr
      refine ⟨_, by simpa [MemoryHostABI.write_value] using hw, ?_⟩
      rw [hp]
      simp only [MemoryHostABI.read_value, hr, Except.map]
      simp only [RuntimeValue.inRange] at hrange
      rw [leBytesToNat_natToLeBytes, h256_4, Nat.mod_eq_of_lt (u32OfI32_lt x),
        i32OfU32_u32OfI32 hrange]
    | I64 x => simp [RuntimeValue.get_type] at hv
    | Usize x => simp [RuntimeValue.get_type] at hv
    | Void => simp [RuntimeValue.get_type] at hv
  · -- I64
    simp only [sizeOfTy] at hsize
    cases v with
    | I64 x =>
      have hz : size ≠ 0 := by omega
      have hp : (s.allocate size).1 = s.next_addr := by
        unfold MemoryHostABI.allocate
        rw [if_neg hz]
      obtain ⟨hw, hr⟩ := allocate_write_read s size (natToLeBytes (wrapU64 x) 8)
        hz (by rw [natToLeBytes_length]; omega)
      rw [natToLeBytes_length] at hw hr
      refine ⟨_, by simpa [MemoryHostABI.write_value] using hw, ?_⟩
      rw [hp]
      simp only [MemoryHostABI.read_value, hr, Except.map]
      simp only [RuntimeValue.inRange] at hrange
      rw [leBytesToNat_natToLeBytes, h256_8, Nat.mod_eq_of_lt (wrapU64_lt x),
        i64OfU64_wrapU64 hrange]
    | I32 x => simp [RuntimeValue.get_type] at hv
    | Usize x => simp [RuntimeValue.get_type] at hv
    | Void => simp [RuntimeValue.get_type] at hv
  · -- Usize
    simp only [sizeOfTy] at hsize
    cases v with
    | Usize x =>
      have hz : size ≠ 0 := by omega
      have hp : (s.allocate size).1 = s.next_addr := by
        unfold MemoryHostABI.allocate
        rw [if_neg hz]
      obtain ⟨hw, hr⟩ := allocate_write_read s size (natToLeBytes x 8)
        hz (by rw [natToLeBytes_length]; omega)
      rw [natToLeBytes_length] at hw hr
      refine ⟨_, by simpa [MemoryHostABI.write_value] using hw, ?_⟩
      rw [hp]
      simp only [MemoryHostABI.read_value, hr, Except.map]
      simp only [RuntimeValue.inRange] at hrange
      rw [leBytesToNat_natToLeBytes, h256_8, Nat.mod_eq_of_lt hrange]
    | I32 x => simp [RuntimeValue.get_type] at hv
    | I64 x => simp [RuntimeValue.get_type] at hv
    | Void => simp [RuntimeValue.get_type] at hv

theorem claim8_memory_store_load_roundtrip_witness :
    MemoryHostABI.new.wf ∧
    (Ty.I32 = Ty.I32 ∨ Ty.I32 = Ty.I64 ∨ Ty.I32 = Ty.Usize) ∧
    (RuntimeValue.I32 5).get_type = Ty.I32 ∧
    (RuntimeValue.I32 5).inRange ∧
    sizeOfTy Ty.I32 ≤ 4 ∧
    ∃ s2, ((MemoryHostABI.new.allocate 4).2).write_value
          (MemoryHostABI.new.allocate 4).1 (.I32 5) = .ok s2 ∧
      s2.read_value (MemoryHostABI.new.allocate 4).1 .I32 = .ok (.I32 5) :=
  ⟨MemoryHostABI.wf_new, Or.inl rfl, rfl, by decide, by decide,
    claim8_memory_store_load_roundtrip MemoryHostABI.new .I32 4 (.I32 5)
      MemoryHostABI.wf_new (Or.inl rfl) rfl (by decide) (by decide)⟩

/-- C9: `VM::call_function` leaves the call-stack depth unchanged whether
it returns `Ok` or `Err`: errors detected before the frame is pushed
(missing function, wrong argument count, argument type mismatch, depth
limit, malformed constants) leave the stack untouched, and the frame
pushed for execution is popped even when execution fails. -/
theorem claim9_call_function_preserves_stack_depth {σ : Type} (abi : HostABIModel σ)
    (checks : Bool) (fuel : Nat) (s : VMState σ) (name : String)
    (args : List RuntimeValue) :
    stackPreserved (call_function abi checks fuel s name args) s :=
  vmRun_preserves_stack_length abi checks fuel (.call s name args)

/-- C10: in both memory host ABIs, `alloc` with size 0 returns the null
address `Usize(0)` without recording any allocation (the ABI state is
unchanged), and `free` of that null address succeeds as a no-op — for any
allocator state, any delegated console behaviour and any system-allocator
behaviour. -/
theorem claim10_alloc_zero_returns_null
    (console : String → List RuntimeValue → Except String RuntimeValue)
    (s : MemoryHostABI) (t : JITMemoryHostABI) (sys : Nat) :
    MemoryHostABI.call_host_function console s "alloc" [.Usize 0]
        = some (.ok (.Usize 0), s) ∧
    MemoryHostABI.call_host_function console s "free" [.Usize 0]
        = some (.ok .Void, s) ∧
    JITMemoryHostABI.call_host_function sys console t "alloc" [.Usize 0]
        = some (.ok (.Usize 0), t) ∧
    JITMemoryHostABI.call_host_function sys console t "free" [.Usize 0]
        = some (.ok .Void, t) :=
  ⟨rfl, rfl, rfl, rfl⟩

end Tilt
